import Mathlib

/-! CHIP-8 interpreter (chip8.hpp, chip8.cpp): shallow embedding.

The C++ class Chip8 is embedded as a record of its data members and its member
functions as functions on that record.

* A C++ array of size N is a function on indices; only indices below N belong
  to the array.  Every array access of the program is checked here against N.
  The program itself performs no such check: where it indexes outside an array
  its behaviour is undefined in C++, and the embedding stops there with
  Stuck.outOfBounds, naming the array and the index that was used.  This is a
  marker of the embedding, the program has no fault reporting of any kind
  (all member functions return void).
* Fixed width integers are natural numbers, reduced modulo 2^8 or 2^16 at the
  places where the C++ operation can wrap.
* The dispatch tables are written once by the constructor and never again, so
  they are constants here, built by the assignments of the constructor.
* Handlers declared in chip8.hpp whose body is not in the sources are a
  parameter of the cycle.
* The definitions whose name ends in Run follow the program past those checks:
  a read outside an array finds a value that is a parameter, the stores of the
  ROM loop outside memory are listed.  Where the checked definitions yield a
  state, the Run definitions yield the same one.
-/

namespace Chip8Emu

/-! ## Constants (chip8.hpp 7-12, chip8.cpp 9-11) -/

@[simp] def KEY_COUNT : Nat := 16
@[simp] def MEMORY_SIZE : Nat := 4096
@[simp] def REGISTER_COUNT : Nat := 16
@[simp] def STACK_SIZE : Nat := 16
@[simp] def SCREEN_WIDTH : Nat := 64
@[simp] def SCREEN_HEIGHT : Nat := 32
@[simp] def FONTSET_SIZE : Nat := 80
@[simp] def FONTSET_START_ADDRESS : Nat := 0x50
@[simp] def START_ADDRESS : Nat := 0x200

/-- The 80 byte font table of chip8.cpp 14-31, five bytes per hexadecimal digit. -/
def fontset : List Nat :=
  [0xF0, 0x90, 0x90, 0x90, 0xF0,
   0x20, 0x60, 0x20, 0x20, 0x70,
   0xF0, 0x10, 0xF0, 0x80, 0xF0,
   0xF0, 0x10, 0xF0, 0x10, 0xF0,
   0x90, 0x90, 0xF0, 0x10, 0x10,
   0xF0, 0x80, 0xF0, 0x10, 0xF0,
   0xF0, 0x80, 0xF0, 0x90, 0xF0,
   0xF0, 0x10, 0x20, 0x40, 0x40,
   0xF0, 0x90, 0xF0, 0x90, 0xF0,
   0xF0, 0x90, 0xF0, 0x10, 0xF0,
   0xF0, 0x90, 0xF0, 0x90, 0x90,
   0xE0, 0x90, 0xE0, 0x90, 0xE0,
   0xF0, 0x80, 0x80, 0x80, 0xF0,
   0xE0, 0x90, 0x90, 0x90, 0xE0,
   0xF0, 0x80, 0xF0, 0x80, 0xF0,
   0xF0, 0x80, 0xF0, 0x80, 0x80]

/-! ## Machine state (chip8.hpp 22-34) -/

/-- Data members of class Chip8, in declaration order.  The last field is not
a member: it is the text the cycle has written to std::cout. -/
structure Chip8 where
  keypad : Nat → Nat
  screen : Nat → Nat
  memory : Nat → Nat
  registers : Nat → Nat
  index : Nat
  pc : Nat
  stack : Nat → Nat
  sp : Nat
  delayTimer : Nat
  soundTimer : Nat
  opcode : Nat
  cout : List String

/-- Array store a[i] = v. -/
def write (a : Nat → Nat) (i v : Nat) : Nat → Nat :=
  fun j => if j = i then v else a j

/-- Decrement of a uint8_t: wraps from 0 to 255. -/
def dec8 (x : Nat) : Nat := (x + 255) % 256

/-- The arrays of the class that the modelled code indexes. -/
inductive ArrayName
  | memory | stack | table | table0 | table8 | tableE | tableF
  deriving DecidableEq

/-- The instruction handlers declared in chip8.hpp 41-144. -/
inductive Op
  | OP_NULL | OP_00E0 | OP_00EE | OP_1nnn | OP_2nnn | OP_3xkk | OP_4xkk
  | OP_5xy0 | OP_6xkk | OP_7xkk | OP_8xy0 | OP_8xy1 | OP_8xy2 | OP_8xy3
  | OP_8xy4 | OP_8xy5 | OP_8xy6 | OP_8xy7 | OP_8xyE | OP_9xy0 | OP_Annn
  | OP_Bnnn | OP_Cxkk | OP_Dxyn | OP_Ex9E | OP_ExA1 | OP_Fx07 | OP_Fx0A
  | OP_Fx15 | OP_Fx18 | OP_Fx1E | OP_Fx29 | OP_Fx33 | OP_Fx55 | OP_Fx65
  deriving DecidableEq

/-- A member function pointer as stored in the primary table: one of the four
secondary dispatchers (chip8.hpp 36-39) or an instruction handler. -/
inductive Chip8Func
  | Table0 | Table8 | TableE | TableF
  | op (f : Op)
  deriving DecidableEq

/-- Where the embedding stops.  The first two are undefined behaviour of the
C++ program (an unchecked access outside an array, a call through a pointer
that was never assigned); the third is a handler whose body is neither in the
sources nor modelled. -/
inductive Stuck
  | outOfBounds (a : ArrayName) (i : Nat)
  | uninitialised (a : ArrayName) (i : Nat)
  | noBody (f : Op)
  deriving DecidableEq

/-! ## Dispatch tables (chip8.hpp 149-154, constructor chip8.cpp 46-101) -/

/-- The loop of chip8.cpp 65-70 and 88-91 for one table: entries 0 .. n-1 are
set to OP_NULL. -/
def fillNull (t : List (Option Op)) (n : Nat) : List (Option Op) :=
  (List.range n).foldl (fun t i => t.set i (some Op.OP_NULL)) t

/-- Primary table, Chip8Func table[0xF+1], after chip8.cpp 47-62. -/
def table : List (Option Chip8Func) :=
  let t : List (Option Chip8Func) := List.replicate (0xF + 1) none
  let t := t.set 0x0 (some Chip8Func.Table0)
  let t := t.set 0x1 (some (Chip8Func.op Op.OP_1nnn))
  let t := t.set 0x2 (some (Chip8Func.op Op.OP_2nnn))
  let t := t.set 0x3 (some (Chip8Func.op Op.OP_3xkk))
  let t := t.set 0x4 (some (Chip8Func.op Op.OP_4xkk))
  let t := t.set 0x5 (some (Chip8Func.op Op.OP_5xy0))
  let t := t.set 0x6 (some (Chip8Func.op Op.OP_6xkk))
  let t := t.set 0x7 (some (Chip8Func.op Op.OP_7xkk))
  let t := t.set 0x8 (some Chip8Func.Table8)
  let t := t.set 0x9 (some (Chip8Func.op Op.OP_9xy0))
  let t := t.set 0xA (some (Chip8Func.op Op.OP_Annn))
  let t := t.set 0xB (some (Chip8Func.op Op.OP_Bnnn))
  let t := t.set 0xC (some (Chip8Func.op Op.OP_Cxkk))
  let t := t.set 0xD (some (Chip8Func.op Op.OP_Dxyn))
  let t := t.set 0xE (some Chip8Func.TableE)
  t.set 0xF (some Chip8Func.TableF)

/-- Secondary table, Chip8Func table0[0xE+1], after chip8.cpp 65-73. -/
def table0 : List (Option Op) :=
  let t := fillNull (List.replicate (0xE + 1) none) (0xE + 1)
  let t := t.set 0x0 (some Op.OP_00E0)
  t.set 0xE (some Op.OP_00EE)

/-- Secondary table, Chip8Func table8[0xE+1], after chip8.cpp 65-83. -/
def table8 : List (Option Op) :=
  let t := fillNull (List.replicate (0xE + 1) none) (0xE + 1)
  let t := t.set 0x0 (some Op.OP_8xy0)
  let t := t.set 0x1 (some Op.OP_8xy1)
  let t := t.set 0x2 (some Op.OP_8xy2)
  let t := t.set 0x3 (some Op.OP_8xy3)
  let t := t.set 0x4 (some Op.OP_8xy4)
  let t := t.set 0x5 (some Op.OP_8xy5)
  let t := t.set 0x6 (some Op.OP_8xy6)
  let t := t.set 0x7 (some Op.OP_8xy7)
  t.set 0xE (some Op.OP_8xyE)

/-- Secondary table, Chip8Func tableE[0xE+1], after chip8.cpp 65-86. -/
def tableE : List (Option Op) :=
  let t := fillNull (List.replicate (0xE + 1) none) (0xE + 1)
  let t := t.set 0x1 (some Op.OP_ExA1)
  t.set 0xE (some Op.OP_Ex9E)

/-- Secondary table, Chip8Func tableF[0x65+1], after chip8.cpp 88-101. -/
def tableF : List (Option Op) :=
  let t := fillNull (List.replicate (0x65 + 1) none) (0x65 + 1)
  let t := t.set 0x07 (some Op.OP_Fx07)
  let t := t.set 0x0A (some Op.OP_Fx0A)
  let t := t.set 0x15 (some Op.OP_Fx15)
  let t := t.set 0x18 (some Op.OP_Fx18)
  let t := t.set 0x1E (some Op.OP_Fx1E)
  let t := t.set 0x29 (some Op.OP_Fx29)
  let t := t.set 0x33 (some Op.OP_Fx33)
  let t := t.set 0x55 (some Op.OP_Fx55)
  t.set 0x65 (some Op.OP_Fx65)

/-- Read of entry i of a dispatch table: outside the table and never assigned
are both undefined in C++. -/
def entry {α : Type} (a : ArrayName) (t : List (Option α)) (i : Nat) : Except Stuck α :=
  match t[i]? with
  | none => Except.error (Stuck.outOfBounds a i)
  | some none => Except.error (Stuck.uninitialised a i)
  | some (some f) => Except.ok f

/-! ## Constructor (chip8.cpp 33-41) -/

/-- The state in which every member has its default member initialiser of
chip8.hpp 22-34. -/
def Chip8.zero : Chip8 :=
  { keypad := fun _ => 0, screen := fun _ => 0, memory := fun _ => 0,
    registers := fun _ => 0, index := 0, pc := 0, stack := fun _ => 0, sp := 0,
    delayTimer := 0, soundTimer := 0, opcode := 0, cout := [] }

/-- The font loop of chip8.cpp 39-41 run for its first n iterations. -/
def loadFont (memory : Nat → Nat) (n : Nat) : Nat → Nat :=
  (List.range n).foldl
    (fun m i => write m (FONTSET_START_ADDRESS + i) (fontset.getD i 0)) memory

/-- Constructor Chip8::Chip8(): the data members after chip8.cpp 33-41.  (The
source name cannot be kept: inside the namespace of the record it would hide
the record type.)  The random number generator, seeded from the clock, is not
part of the state modelled here. -/
def Chip8.init : Chip8 :=
  let s := Chip8.zero
  let s := { s with pc := START_ADDRESS }
  { s with memory := loadFont s.memory FONTSET_SIZE }

/-! ## Instruction handlers with a body in chip8.cpp -/

/-- Body of chip8.cpp 194-195. -/
def Chip8.OP_NULL (s : Chip8) : Except Stuck Chip8 :=
  Except.ok s

/-- Body of chip8.cpp 197-209: memset of the whole screen array. -/
def Chip8.OP_00E0 (s : Chip8) : Except Stuck Chip8 :=
  Except.ok { s with screen := fun i => if i < SCREEN_WIDTH * SCREEN_HEIGHT then 0 else s.screen i }

/-- Body of chip8.cpp 211-224: the decrement of sp, then pc = stack[sp]. -/
def Chip8.OP_00EE (s : Chip8) : Except Stuck Chip8 :=
  let s := { s with sp := dec8 s.sp }
  if s.sp < STACK_SIZE then
    Except.ok { s with pc := s.stack s.sp }
  else
    Except.error (Stuck.outOfBounds ArrayName.stack s.sp)

/-- Body of chip8.cpp 226-239. -/
def Chip8.OP_1nnn (s : Chip8) : Except Stuck Chip8 :=
  let address := s.opcode &&& 0x0FFF
  Except.ok { s with pc := address }

/-! ## Dispatch and cycle (chip8.cpp 139-192) -/

/-- Call of an instruction handler: the four bodies of chip8.cpp, and for the
handlers that are only declared the behaviour given by ext. -/
def Chip8.invoke (ext : Op → Chip8 → Except Stuck Chip8) : Op → Chip8 → Except Stuck Chip8
  | Op.OP_NULL, s => s.OP_NULL
  | Op.OP_00E0, s => s.OP_00E0
  | Op.OP_00EE, s => s.OP_00EE
  | Op.OP_1nnn, s => s.OP_1nnn
  | f, s => ext f s

/-- Body of chip8.cpp 174-177. -/
def Chip8.Table0 (ext : Op → Chip8 → Except Stuck Chip8) (s : Chip8) : Except Stuck Chip8 :=
  match entry ArrayName.table0 table0 (s.opcode &&& 0x000F) with
  | Except.ok f => Chip8.invoke ext f s
  | Except.error e => Except.error e

/-- Body of chip8.cpp 179-182. -/
def Chip8.Table8 (ext : Op → Chip8 → Except Stuck Chip8) (s : Chip8) : Except Stuck Chip8 :=
  match entry ArrayName.table8 table8 (s.opcode &&& 0x000F) with
  | Except.ok f => Chip8.invoke ext f s
  | Except.error e => Except.error e

/-- Body of chip8.cpp 184-187. -/
def Chip8.TableE (ext : Op → Chip8 → Except Stuck Chip8) (s : Chip8) : Except Stuck Chip8 :=
  match entry ArrayName.tableE tableE (s.opcode &&& 0x000F) with
  | Except.ok f => Chip8.invoke ext f s
  | Except.error e => Except.error e

/-- Body of chip8.cpp 189-192. -/
def Chip8.TableF (ext : Op → Chip8 → Except Stuck Chip8) (s : Chip8) : Except Stuck Chip8 :=
  match entry ArrayName.tableF tableF (s.opcode &&& 0x00FF) with
  | Except.ok f => Chip8.invoke ext f s
  | Except.error e => Except.error e

/-- Call through a pointer of the primary table. -/
def Chip8.call (ext : Op → Chip8 → Except Stuck Chip8) : Chip8Func → Chip8 → Except Stuck Chip8
  | Chip8Func.Table0, s => Chip8.Table0 ext s
  | Chip8Func.Table8, s => Chip8.Table8 ext s
  | Chip8Func.TableE, s => Chip8.TableE ext s
  | Chip8Func.TableF, s => Chip8.TableF ext s
  | Chip8Func.op f, s => Chip8.invoke ext f s

/-- The fetch of chip8.cpp 154: (memory[pc] << 8u) | memory[pc + 1], converted
to the uint16_t opcode.  Both reads are checked against MEMORY_SIZE. -/
def Chip8.fetchOpcode (s : Chip8) : Except Stuck Nat :=
  if s.pc < MEMORY_SIZE then
    if s.pc + 1 < MEMORY_SIZE then
      Except.ok (((s.memory s.pc <<< 8) ||| s.memory (s.pc + 1)) % 65536)
    else Except.error (Stuck.outOfBounds ArrayName.memory (s.pc + 1))
  else Except.error (Stuck.outOfBounds ArrayName.memory s.pc)

/-- The timer update of chip8.cpp 162-171. -/
def Chip8.updateTimers (s : Chip8) : Chip8 :=
  let s := if s.delayTimer > 0 then { s with delayTimer := dec8 s.delayTimer } else s
  if s.soundTimer > 0 then
    let s := if s.soundTimer = 1 then { s with cout := s.cout ++ ["BEEP!\n"] } else s
    { s with soundTimer := dec8 s.soundTimer }
  else s

/-- Body of Chip8::EmulateCycle, chip8.cpp 139-172. -/
def Chip8.EmulateCycle (ext : Op → Chip8 → Except Stuck Chip8) (s : Chip8) : Except Stuck Chip8 :=
  -- opcode = (memory[pc] << 8u) | memory[pc + 1];
  match s.fetchOpcode with
  | Except.error e => Except.error e
  | Except.ok w =>
    let s := { s with opcode := w }
    -- pc += 2;
    let s := { s with pc := (s.pc + 2) % 65536 }
    -- ((*this).*(table[(opcode & 0xF000u) >> 12u]))();
    match entry ArrayName.table table ((s.opcode &&& 0xF000) >>> 12) with
    | Except.error e => Except.error e
    | Except.ok f =>
      match Chip8.call ext f s with
      | Except.error e => Except.error e
      | Except.ok s => Except.ok s.updateTimers

/-- The instruction handler that the two levels of tables of chip8.cpp 160 and
174-192 reach for the instruction word w. -/
def handlerOf (w : Nat) : Except Stuck Op :=
  match entry ArrayName.table table ((w &&& 0xF000) >>> 12) with
  | Except.error e => Except.error e
  | Except.ok Chip8Func.Table0 => entry ArrayName.table0 table0 (w &&& 0x000F)
  | Except.ok Chip8Func.Table8 => entry ArrayName.table8 table8 (w &&& 0x000F)
  | Except.ok Chip8Func.TableE => entry ArrayName.tableE tableE (w &&& 0x000F)
  | Except.ok Chip8Func.TableF => entry ArrayName.tableF tableF (w &&& 0x00FF)
  | Except.ok (Chip8Func.op f) => Except.ok f

/-! ## ROM loading (chip8.cpp 104-137) -/

/-- The copy loop of chip8.cpp 130-133 run for its first n iterations.  A store
at or beyond MEMORY_SIZE is outside the memory array. -/
def copyROM (buffer : List Nat) (n : Nat) (s : Chip8) : Except Stuck Chip8 :=
  (List.range n).foldlM
    (fun s i =>
      if START_ADDRESS + i < MEMORY_SIZE then
        Except.ok { s with memory := write s.memory (START_ADDRESS + i) (buffer.getD i 0 % 256) }
      else Except.error (Stuck.outOfBounds ArrayName.memory (START_ADDRESS + i)))
    s

/-- Body of Chip8::LoadROM.  The file is none when it cannot be opened, else
the list of its bytes; size is its length, and each char of the buffer is
converted to uint8_t on the store. -/
def Chip8.LoadROM (file : Option (List Nat)) (s : Chip8) : Except Stuck Chip8 :=
  match file with
  | none => Except.ok s
  | some buffer => copyROM buffer buffer.length s

/-! ## Handlers declared in chip8.hpp without a body in the sources -/

/-- Modelled from the spec: the body of OP_2nnn (CALL addr, declared at
chip8.hpp 53-54) is missing.  Spec: "CALL nnn: Push current program counter,
then jump to nnn", with "push = store-then-increment" on the 16 entry stack and
nnn the low 12 bits of the instruction word. -/
def Chip8.OP_2nnn (s : Chip8) : Except Stuck Chip8 :=
  let address := s.opcode &&& 0x0FFF
  if s.sp < STACK_SIZE then
    Except.ok { s with stack := write s.stack s.sp s.pc, sp := (s.sp + 1) % 256, pc := address }
  else
    Except.error (Stuck.outOfBounds ArrayName.stack s.sp)

/-- Modelled from the spec: the body of OP_8xy4 (ADD Vx, Vy, declared at
chip8.hpp 83-84) is missing.  Spec: "Vx := Vx+Vy (8-bit truncated); flag
register := 1 if the true sum exceeded 255, else 0", where "every arithmetic op
that defines a flag must write it last (after consuming operand values)", x is
bits 11-8 and y bits 7-4 of the instruction word. -/
def Chip8.OP_8xy4 (s : Chip8) : Except Stuck Chip8 :=
  let x := (s.opcode &&& 0x0F00) >>> 8
  let y := (s.opcode &&& 0x00F0) >>> 4
  let sum := s.registers x + s.registers y
  let registers := write s.registers x (sum % 256)
  let registers := write registers 0xF (if sum > 255 then 1 else 0)
  Except.ok { s with registers := registers }

/-- The missing bodies as far as they are modelled: CALL and ADD Vx, Vy from
the spec, every other declared handler stops the embedding. -/
def specBodies : Op → Chip8 → Except Stuck Chip8
  | Op.OP_2nnn, s => s.OP_2nnn
  | Op.OP_8xy4, s => s.OP_8xy4
  | f, _ => Except.error (Stuck.noBody f)

/-! ## Concrete states used below -/

/-- The state s with the given bytes stored in memory from address a on. -/
def Chip8.withBytes (s : Chip8) (a : Nat) (bytes : List Nat) : Chip8 :=
  { s with memory := fun j => if a ≤ j ∧ j < a + bytes.length then bytes.getD (j - a) 0 else s.memory j }

/-! ## The program as it runs, past the checks of the embedding

The code has no bounds check, so the compiled program does not stop where the
definitions above stop: a read outside an array takes what follows the array
in the object, and a store outside it lands there.  Which members those bytes
belong to is a matter of the object layout and is not modelled.  A read of
array a at an index i outside it therefore yields beyond a i, a parameter
(cut to the element type), and the stores of the copy loop outside the memory
array are listed, not applied.  A call through a dispatch table entry outside
the table stays stuck. -/

/-- Read of memory[i] as executed: the array cell, or what lies at that index
beyond the array. -/
def Chip8.memoryAt (beyond : ArrayName → Nat → Nat) (s : Chip8) (i : Nat) : Nat :=
  if i < MEMORY_SIZE then s.memory i else beyond ArrayName.memory i % 256

/-- Read of stack[i] as executed: the array entry, or what lies at that index
beyond the array. -/
def Chip8.stackAt (beyond : ArrayName → Nat → Nat) (s : Chip8) (i : Nat) : Nat :=
  if i < STACK_SIZE then s.stack i else beyond ArrayName.stack i % 65536

/-- Body of chip8.cpp 211-224 as executed: the decrement of sp, then
pc = stack[sp], with no test of sp. -/
def Chip8.OP_00EE_run (beyond : ArrayName → Nat → Nat) (s : Chip8) : Chip8 :=
  let s := { s with sp := dec8 s.sp }
  { s with pc := s.stackAt beyond s.sp }

/-- Call of an instruction handler as executed: RET without its check, the
other handlers as in invoke (they index no array with a computed index). -/
def Chip8.invokeRun (beyond : ArrayName → Nat → Nat) (ext : Op → Chip8 → Except Stuck Chip8) :
    Op → Chip8 → Except Stuck Chip8
  | Op.OP_00EE, s => Except.ok (s.OP_00EE_run beyond)
  | f, s => Chip8.invoke ext f s

/-- Body of Chip8::EmulateCycle, chip8.cpp 139-172, as executed: the two bytes
are read at pc and pc + 1 wherever these lie, pc is advanced, the handler the
tables reach is called, the timers are updated. -/
def Chip8.EmulateCycleRun (beyond : ArrayName → Nat → Nat)
    (ext : Op → Chip8 → Except Stuck Chip8) (s : Chip8) : Except Stuck Chip8 :=
  -- opcode = (memory[pc] << 8u) | memory[pc + 1];
  let w := ((s.memoryAt beyond s.pc <<< 8) ||| s.memoryAt beyond (s.pc + 1)) % 65536
  let s := { s with opcode := w }
  -- pc += 2;
  let s := { s with pc := (s.pc + 2) % 65536 }
  -- ((*this).*(table[(opcode & 0xF000u) >> 12u]))();
  match handlerOf s.opcode with
  | Except.error e => Except.error e
  | Except.ok f =>
    match Chip8.invokeRun beyond ext f s with
    | Except.error e => Except.error e
    | Except.ok s => Except.ok s.updateTimers

/-- The copy loop of chip8.cpp 130-133 as executed for its first n iterations,
with no bound on the index: the memory array afterwards, and in program order
the stores (index, byte) that went to indices outside the array. -/
def copyROMRun (buffer : List Nat) (n : Nat) (memory : Nat → Nat) :
    (Nat → Nat) × List (Nat × Nat) :=
  (List.range n).foldl
    (fun r i =>
      if START_ADDRESS + i < MEMORY_SIZE then
        (write r.1 (START_ADDRESS + i) (buffer.getD i 0 % 256), r.2)
      else (r.1, r.2 ++ [(START_ADDRESS + i, buffer.getD i 0 % 256)]))
    (memory, [])

/-- Body of Chip8::LoadROM as executed: the loop runs over the whole file. -/
def Chip8.LoadROMRun (file : Option (List Nat)) (s : Chip8) :
    (Nat → Nat) × List (Nat × Nat) :=
  match file with
  | none => (s.memory, [])
  | some buffer => copyROMRun buffer buffer.length s.memory

/-! ## Auxiliary facts -/

theorem and_0FFF (w : Nat) : w &&& 0x0FFF = w % 4096 :=
  Nat.and_pow_two_sub_one_eq_mod w 12

theorem and_000F (w : Nat) : w &&& 0x000F = w % 16 :=
  Nat.and_pow_two_sub_one_eq_mod w 4

theorem and_00FF (w : Nat) : w &&& 0x00FF = w % 256 :=
  Nat.and_pow_two_sub_one_eq_mod w 8

theorem topNibble (w : Nat) (h : w < 65536) : (w &&& 0xF000) >>> 12 = w / 4096 := by
  have hd : (w &&& 0xF000) >>> 12 = (w >>> 12) &&& (2 ^ 4 - 1) := by
    apply Nat.eq_of_testBit_eq
    intro i
    have hb : Nat.testBit (15 <<< 12) (12 + i) = Nat.testBit 15 i := by
      rw [Nat.testBit_shiftLeft]; simp
    have hF : Nat.testBit 0xF000 (12 + i) = Nat.testBit 15 i := hb
    simp only [Nat.testBit_shiftRight, Nat.testBit_and, hF]
    rfl
  rw [hd, Nat.and_pow_two_sub_one_eq_mod, Nat.shiftRight_eq_div_pow]
  omega

theorem shift_or_bytes (a b : Nat) (hb : b < 256) : (a <<< 8) ||| b = 256 * a + b := by
  rw [Nat.shiftLeft_eq, Nat.mul_comm]
  exact (Nat.mul_add_lt_is_or (by simpa using hb : b < 2 ^ 8) a).symm

theorem fetchOpcode_ok {s : Chip8} {w : Nat} (h : s.fetchOpcode = Except.ok w) :
    s.pc + 1 < 4096 ∧ w < 65536 ∧
      w = ((s.memory s.pc <<< 8) ||| s.memory (s.pc + 1)) % 65536 := by
  unfold Chip8.fetchOpcode at h
  split at h
  · split at h
    · simp only [Except.ok.injEq] at h
      refine ⟨by simp_all, ?_, h.symm⟩
      omega
    · simp at h
  · simp at h

/-- The cycle in terms of the handler reached: fetch, advance by 2, run the
handler on the advanced state, update the timers. -/
theorem EmulateCycle_eq (ext : Op → Chip8 → Except Stuck Chip8) (s : Chip8) (w : Nat)
    (hf : s.fetchOpcode = Except.ok w) :
    s.EmulateCycle ext =
      match handlerOf w with
      | Except.error e => Except.error e
      | Except.ok f =>
        match Chip8.invoke ext f { s with opcode := w, pc := s.pc + 2 } with
        | Except.error e => Except.error e
        | Except.ok s1 => Except.ok s1.updateTimers := by
  have hpc : (s.pc + 2) % 65536 = s.pc + 2 := by
    have := (fetchOpcode_ok hf).1
    omega
  unfold Chip8.EmulateCycle handlerOf
  simp only [hf, hpc]
  cases hE : entry ArrayName.table table ((w &&& 0xF000) >>> 12) with
  | error e => rfl
  | ok f =>
    cases f with
    | Table0 =>
      simp only [Chip8.call, Chip8.Table0]
      cases entry ArrayName.table0 table0 (w &&& 0x000F) <;> rfl
    | Table8 =>
      simp only [Chip8.call, Chip8.Table8]
      cases entry ArrayName.table8 table8 (w &&& 0x000F) <;> rfl
    | TableE =>
      simp only [Chip8.call, Chip8.TableE]
      cases entry ArrayName.tableE tableE (w &&& 0x000F) <;> rfl
    | TableF =>
      simp only [Chip8.call, Chip8.TableF]
      cases entry ArrayName.tableF tableF (w &&& 0x00FF) <;> rfl
    | op f => simp only [Chip8.call]

/-! ### The timer update touches the timers and the output only -/

@[simp] theorem updateTimers_keypad (s : Chip8) : s.updateTimers.keypad = s.keypad := by
  unfold Chip8.updateTimers
  by_cases hd : s.delayTimer > 0 <;> by_cases hs : s.soundTimer > 0 <;>
    by_cases h1 : s.soundTimer = 1 <;> simp [hd, hs, h1]

@[simp] theorem updateTimers_screen (s : Chip8) : s.updateTimers.screen = s.screen := by
  unfold Chip8.updateTimers
  by_cases hd : s.delayTimer > 0 <;> by_cases hs : s.soundTimer > 0 <;>
    by_cases h1 : s.soundTimer = 1 <;> simp [hd, hs, h1]

@[simp] theorem updateTimers_memory (s : Chip8) : s.updateTimers.memory = s.memory := by
  unfold Chip8.updateTimers
  by_cases hd : s.delayTimer > 0 <;> by_cases hs : s.soundTimer > 0 <;>
    by_cases h1 : s.soundTimer = 1 <;> simp [hd, hs, h1]

@[simp] theorem updateTimers_registers (s : Chip8) : s.updateTimers.registers = s.registers := by
  unfold Chip8.updateTimers
  by_cases hd : s.delayTimer > 0 <;> by_cases hs : s.soundTimer > 0 <;>
    by_cases h1 : s.soundTimer = 1 <;> simp [hd, hs, h1]

@[simp] theorem updateTimers_index (s : Chip8) : s.updateTimers.index = s.index := by
  unfold Chip8.updateTimers
  by_cases hd : s.delayTimer > 0 <;> by_cases hs : s.soundTimer > 0 <;>
    by_cases h1 : s.soundTimer = 1 <;> simp [hd, hs, h1]

@[simp] theorem updateTimers_pc (s : Chip8) : s.updateTimers.pc = s.pc := by
  unfold Chip8.updateTimers
  by_cases hd : s.delayTimer > 0 <;> by_cases hs : s.soundTimer > 0 <;>
    by_cases h1 : s.soundTimer = 1 <;> simp [hd, hs, h1]

@[simp] theorem updateTimers_stack (s : Chip8) : s.updateTimers.stack = s.stack := by
  unfold Chip8.updateTimers
  by_cases hd : s.delayTimer > 0 <;> by_cases hs : s.soundTimer > 0 <;>
    by_cases h1 : s.soundTimer = 1 <;> simp [hd, hs, h1]

@[simp] theorem updateTimers_sp (s : Chip8) : s.updateTimers.sp = s.sp := by
  unfold Chip8.updateTimers
  by_cases hd : s.delayTimer > 0 <;> by_cases hs : s.soundTimer > 0 <;>
    by_cases h1 : s.soundTimer = 1 <;> simp [hd, hs, h1]

@[simp] theorem updateTimers_opcode (s : Chip8) : s.updateTimers.opcode = s.opcode := by
  unfold Chip8.updateTimers
  by_cases hd : s.delayTimer > 0 <;> by_cases hs : s.soundTimer > 0 <;>
    by_cases h1 : s.soundTimer = 1 <;> simp [hd, hs, h1]

theorem updateTimers_delayTimer (s : Chip8) (h : s.delayTimer < 256) :
    s.updateTimers.delayTimer = s.delayTimer - 1 := by
  unfold Chip8.updateTimers dec8
  by_cases hd : s.delayTimer > 0 <;> by_cases hs : s.soundTimer > 0 <;>
    by_cases h1 : s.soundTimer = 1 <;> simp [hd, hs, h1] <;> omega

theorem updateTimers_soundTimer (s : Chip8) (h : s.soundTimer < 256) :
    s.updateTimers.soundTimer = s.soundTimer - 1 := by
  unfold Chip8.updateTimers dec8
  by_cases hd : s.delayTimer > 0 <;> by_cases hs : s.soundTimer > 0 <;>
    by_cases h1 : s.soundTimer = 1 <;> simp [hd, hs, h1] <;> omega

theorem fetchOpcode_of_bytes (s : Chip8) (hi lo : Nat) (hpc : s.pc + 1 < MEMORY_SIZE)
    (h0 : s.memory s.pc = hi) (h1 : s.memory (s.pc + 1) = lo) :
    s.fetchOpcode = Except.ok (((hi <<< 8) ||| lo) % 65536) := by
  simp only [MEMORY_SIZE] at hpc
  have hpc0 : s.pc < 4096 := by omega
  simp [Chip8.fetchOpcode, hpc, hpc0, h0, h1]

/-- CLS at the program counter: the cycle completes, clears the screen and
advances the program counter by 2. -/
theorem cls_cycle (ext : Op → Chip8 → Except Stuck Chip8) (s : Chip8)
    (hpc : s.pc + 1 < MEMORY_SIZE) (h0 : s.memory s.pc = 0x00)
    (h1 : s.memory (s.pc + 1) = 0xE0) :
    ∃ s', s.EmulateCycle ext = Except.ok s' ∧
      (∀ i, i < SCREEN_WIDTH * SCREEN_HEIGHT → s'.screen i = 0) ∧ s'.pc = s.pc + 2 := by
  have hf := fetchOpcode_of_bytes s 0x00 0xE0 hpc h0 h1
  have hw : ((0x00 <<< 8) ||| 0xE0) % 65536 = 0x00E0 := by decide
  rw [hw] at hf
  have hh : handlerOf 0x00E0 = Except.ok Op.OP_00E0 := by rfl
  rw [EmulateCycle_eq ext s _ hf, hh]
  refine ⟨_, rfl, ?_, ?_⟩
  · intro i hi
    simp only [updateTimers_screen]
    exact if_pos hi
  · simp

/-- A word routed to the dummy handler: the cycle completes and changes only
the instruction word, the program counter (plus 2) and what the timer update
changes. -/
theorem nop_cycle (ext : Op → Chip8 → Except Stuck Chip8) (s : Chip8) (w : Nat)
    (hf : s.fetchOpcode = Except.ok w) (hh : handlerOf w = Except.ok Op.OP_NULL) :
    s.EmulateCycle ext =
      Except.ok ({ s with opcode := w, pc := s.pc + 2 } : Chip8).updateTimers := by
  rw [EmulateCycle_eq ext s w hf, hh]
  rfl

/-! ## C1 -/

theorem entry_outside {α : Type} (a : ArrayName) (t : List (Option α)) (i : Nat)
    (h : t.length ≤ i) : entry a t i = Except.error (Stuck.outOfBounds a i) := by
  unfold entry
  rw [List.getElem?_eq_none h]

/-- C1 (the code at the keys the tables do not cover).  For every state whose
fetched word w is in family 0x0, 0x8 or 0xE with low nibble 0xF, the cycle
indexes the 15 entry table of that family at 15; in family 0xF with low byte
0x66 or more it indexes the 0x66 entry tableF at that byte.  Each index is
outside the table the constructor filled, so the cycle calls through no
handler at all and is not the no-op the claim promises for these keys. -/
theorem unregistered_key_indexes_outside_table (ext : Op → Chip8 → Except Stuck Chip8)
    (s : Chip8) (w : Nat) (hf : s.fetchOpcode = Except.ok w) :
    (w / 4096 = 0x0 → w % 16 = 0xF →
      s.EmulateCycle ext = Except.error (Stuck.outOfBounds ArrayName.table0 15)) ∧
    (w / 4096 = 0x8 → w % 16 = 0xF →
      s.EmulateCycle ext = Except.error (Stuck.outOfBounds ArrayName.table8 15)) ∧
    (w / 4096 = 0xE → w % 16 = 0xF →
      s.EmulateCycle ext = Except.error (Stuck.outOfBounds ArrayName.tableE 15)) ∧
    (w / 4096 = 0xF → 0x66 ≤ w % 256 →
      s.EmulateCycle ext = Except.error (Stuck.outOfBounds ArrayName.tableF (w % 256))) ∧
    table0.length = 15 ∧ table8.length = 15 ∧ tableE.length = 15 ∧ tableF.length = 0x66 := by
  have hw : w < 65536 := (fetchOpcode_ok hf).2.1
  rw [EmulateCycle_eq ext s w hf]
  unfold handlerOf
  rw [topNibble w hw, and_000F, and_00FF]
  refine ⟨?_, ?_, ?_, ?_, rfl, rfl, rfl, rfl⟩
  · intro ht hk
    rw [ht, hk]
    rfl
  · intro ht hk
    rw [ht, hk]
    rfl
  · intro ht hk
    rw [ht, hk]
    rfl
  · intro ht hk
    rw [ht]
    have he : entry ArrayName.table table 0xF = Except.ok Chip8Func.TableF := by rfl
    have ho := entry_outside ArrayName.tableF tableF (w % 256) hk
    simp only [he, ho]

/-- C1 at concrete failing inputs: the constructed state with the word 0x000F,
and with the word 0xF066, at 0x200. -/
theorem unregistered_key_indexes_outside_table_witness :
    (Chip8.init.withBytes 0x200 [0x00, 0x0F]).EmulateCycle specBodies
        = Except.error (Stuck.outOfBounds ArrayName.table0 15) ∧
    (Chip8.init.withBytes 0x200 [0xF0, 0x66]).EmulateCycle specBodies
        = Except.error (Stuck.outOfBounds ArrayName.tableF 0x66) :=
  ⟨(unregistered_key_indexes_outside_table specBodies
      (Chip8.init.withBytes 0x200 [0x00, 0x0F]) 0x000F rfl).1 rfl rfl,
   (unregistered_key_indexes_outside_table specBodies
      (Chip8.init.withBytes 0x200 [0xF0, 0x66]) 0xF066 rfl).2.2.2.1 rfl (by decide)⟩

/-! ## C2 -/

/-- C2.  In every state whose two bytes at the program counter are 0x00, 0xE0
(both inside memory), one EmulateCycle completes, leaves every one of the
64*32 framebuffer cells 0 and the program counter at its previous value plus
2; in particular from the constructed state with 0x00E0 stored at 0x200 the
program counter becomes 0x202 and the framebuffer is all off. -/
theorem cls_clears_screen_and_advances (ext : Op → Chip8 → Except Stuck Chip8) (s : Chip8)
    (hpc : s.pc + 1 < MEMORY_SIZE) (h0 : s.memory s.pc = 0x00)
    (h1 : s.memory (s.pc + 1) = 0xE0) :
    (∃ s', s.EmulateCycle ext = Except.ok s' ∧
      (∀ i, i < SCREEN_WIDTH * SCREEN_HEIGHT → s'.screen i = 0) ∧ s'.pc = s.pc + 2) ∧
    (∃ s', (Chip8.init.withBytes 0x200 [0x00, 0xE0]).EmulateCycle ext = Except.ok s' ∧
      (∀ i, i < SCREEN_WIDTH * SCREEN_HEIGHT → s'.screen i = 0) ∧ s'.pc = 0x202) :=
  ⟨cls_cycle ext s hpc h0 h1,
   cls_cycle ext (Chip8.init.withBytes 0x200 [0x00, 0xE0]) (by decide) rfl rfl⟩

/-- C2 at a concrete state: every pixel lit, CLS stored at 0x300, program
counter 0x300. -/
theorem cls_clears_screen_and_advances_witness :
    ∃ s', ({ Chip8.init.withBytes 0x300 [0x00, 0xE0] with
              pc := 0x300, screen := fun _ => 1 } : Chip8).EmulateCycle specBodies
            = Except.ok s' ∧
      (∀ i, i < SCREEN_WIDTH * SCREEN_HEIGHT → s'.screen i = 0) ∧ s'.pc = 0x300 + 2 :=
  (cls_clears_screen_and_advances specBodies
    { Chip8.init.withBytes 0x300 [0x00, 0xE0] with pc := 0x300, screen := fun _ => 1 }
    (by decide) rfl rfl).1

/-! ## C3 -/

theorem handlerOf_1nnn (nnn : Nat) (hn : nnn < 4096) :
    handlerOf (0x1000 + nnn) = Except.ok Op.OP_1nnn := by
  unfold handlerOf
  have ht : ((0x1000 + nnn) &&& 0xF000) >>> 12 = 1 := by
    rw [topNibble _ (by omega)]; omega
  rw [ht]
  rfl

/-- C3.  For every state and every 12-bit address nnn, if the fetched word is
0x1nnn then one EmulateCycle completes with the program counter exactly nnn
(not nnn + 2), hence below 4096. -/
theorem jp_sets_pc (ext : Op → Chip8 → Except Stuck Chip8) (s : Chip8) (nnn : Nat)
    (hn : nnn < 4096) (hf : s.fetchOpcode = Except.ok (0x1000 + nnn)) :
    ∃ s', s.EmulateCycle ext = Except.ok s' ∧ s'.pc = nnn ∧ s'.pc < MEMORY_SIZE := by
  rw [EmulateCycle_eq ext s _ hf, handlerOf_1nnn nnn hn]
  refine ⟨_, rfl, ?_, ?_⟩
  · simp only [updateTimers_pc, and_0FFF]
    omega
  · simp only [updateTimers_pc, and_0FFF, MEMORY_SIZE]
    omega

/-- C3 at the scenario of the spec: 0x1300 at 0x200 gives 0x300, not 0x302. -/
theorem jp_sets_pc_witness :
    ∃ s', (Chip8.init.withBytes 0x200 [0x13, 0x00]).EmulateCycle specBodies = Except.ok s' ∧
      s'.pc = 0x300 ∧ s'.pc < MEMORY_SIZE :=
  jp_sets_pc specBodies (Chip8.init.withBytes 0x200 [0x13, 0x00]) 0x300 (by decide) rfl

/-! ## C4 -/

/-- RET on the advanced state: with sp in 1..16 it completes. -/
theorem OP_00EE_ok (s : Chip8) (h1 : 1 ≤ s.sp) (h16 : s.sp ≤ 16) :
    s.OP_00EE = Except.ok { s with sp := s.sp - 1, pc := s.stack (s.sp - 1) } := by
  have hd : dec8 s.sp = s.sp - 1 := by unfold dec8; omega
  have hlt : s.sp - 1 < 16 := by omega
  simp [Chip8.OP_00EE, hd, hlt]

/-- The RET cycle from a state with stack pointer in 1..16. -/
theorem ret_pops_return_address_aux (ext : Op → Chip8 → Except Stuck Chip8) (s : Chip8)
    (hf : s.fetchOpcode = Except.ok 0x00EE) (h1 : 1 ≤ s.sp) (h16 : s.sp ≤ 16) :
    ∃ s', s.EmulateCycle ext = Except.ok s' ∧ s'.sp = s.sp - 1 ∧
      s'.pc = s.stack (s.sp - 1) := by
  have hh : handlerOf 0x00EE = Except.ok Op.OP_00EE := by rfl
  rw [EmulateCycle_eq ext s _ hf, hh]
  simp only [Chip8.invoke]
  rw [OP_00EE_ok { s with opcode := 0x00EE, pc := s.pc + 2 } h1 h16]
  exact ⟨_, rfl, by simp, by simp⟩

/-- The four handlers with a body in chip8.cpp leave both timers as they are. -/
theorem invoke_source_timers (ext : Op → Chip8 → Except Stuck Chip8) (f : Op) (s s1 : Chip8)
    (hop : f = Op.OP_NULL ∨ f = Op.OP_00E0 ∨ f = Op.OP_00EE ∨ f = Op.OP_1nnn)
    (h : Chip8.invoke ext f s = Except.ok s1) :
    s1.delayTimer = s.delayTimer ∧ s1.soundTimer = s.soundTimer := by
  rcases hop with rfl | rfl | rfl | rfl
  · simp only [Chip8.invoke, Chip8.OP_NULL, Except.ok.injEq] at h
    subst h; exact ⟨rfl, rfl⟩
  · simp only [Chip8.invoke, Chip8.OP_00E0, Except.ok.injEq] at h
    subst h; exact ⟨rfl, rfl⟩
  · simp only [Chip8.invoke, Chip8.OP_00EE] at h
    split at h
    · simp only [Except.ok.injEq] at h
      subst h; exact ⟨rfl, rfl⟩
    · simp at h
  · simp only [Chip8.invoke, Chip8.OP_1nnn, Except.ok.injEq] at h
    subst h; exact ⟨rfl, rfl⟩

/-- C4.  For every state (timers in their 8-bit range) whose fetched word w is
routed to CLS, RET, JP or the no-op handler: whenever one EmulateCycle yields a
state, its delay timer is the previous one minus 1 if that was greater than 0
and 0 otherwise, and likewise, independently, its sound timer; and the cycle
does yield a state, for RET provided the stack pointer is in 1..16. -/
theorem timers_decrement_and_clamp (ext : Op → Chip8 → Except Stuck Chip8) (s : Chip8)
    (w : Nat) (f : Op) (hf : s.fetchOpcode = Except.ok w) (hh : handlerOf w = Except.ok f)
    (hop : f = Op.OP_NULL ∨ f = Op.OP_00E0 ∨ f = Op.OP_00EE ∨ f = Op.OP_1nnn)
    (hd : s.delayTimer < 256) (hs : s.soundTimer < 256) :
    (∀ s', s.EmulateCycle ext = Except.ok s' →
      s'.delayTimer = (if s.delayTimer > 0 then s.delayTimer - 1 else 0) ∧
      s'.soundTimer = (if s.soundTimer > 0 then s.soundTimer - 1 else 0)) ∧
    ((f = Op.OP_00EE → 1 ≤ s.sp ∧ s.sp ≤ 16) → ∃ s', s.EmulateCycle ext = Except.ok s') := by
  rw [EmulateCycle_eq ext s w hf, hh]
  constructor
  · intro s' h
    cases hi : Chip8.invoke ext f { s with opcode := w, pc := s.pc + 2 } with
    | error e => simp [hi] at h
    | ok s1 =>
      simp only [hi, Except.ok.injEq] at h
      obtain ⟨h1, h2⟩ := invoke_source_timers ext f _ s1 hop hi
      simp only at h1 h2
      subst h
      rw [updateTimers_delayTimer s1 (by omega), updateTimers_soundTimer s1 (by omega), h1, h2]
      constructor <;> split <;> omega
  · intro hsp
    rcases hop with rfl | rfl | rfl | rfl
    · exact ⟨_, rfl⟩
    · exact ⟨_, rfl⟩
    · obtain ⟨h1, h16⟩ := hsp rfl
      simp only [Chip8.invoke]
      rw [OP_00EE_ok { s with opcode := w, pc := s.pc + 2 } h1 h16]
      exact ⟨_, rfl⟩
    · exact ⟨_, rfl⟩

/-- C4 at a concrete state: JP 0x300 with delay timer 5 and sound timer 0. -/
theorem timers_decrement_and_clamp_witness :
    (∀ s', ({ Chip8.init.withBytes 0x200 [0x13, 0x00] with delayTimer := 5 } : Chip8).EmulateCycle
        specBodies = Except.ok s' → s'.delayTimer = 4 ∧ s'.soundTimer = 0) ∧
    ∃ s', ({ Chip8.init.withBytes 0x200 [0x13, 0x00] with delayTimer := 5 } : Chip8).EmulateCycle
        specBodies = Except.ok s' :=
  ⟨(timers_decrement_and_clamp specBodies
      { Chip8.init.withBytes 0x200 [0x13, 0x00] with delayTimer := 5 } 0x1300 Op.OP_1nnn
      rfl rfl (by decide) (by decide) (by decide)).1,
   (timers_decrement_and_clamp specBodies
      { Chip8.init.withBytes 0x200 [0x13, 0x00] with delayTimer := 5 } 0x1300 Op.OP_1nnn
      rfl rfl (by decide) (by decide) (by decide)).2 (by decide)⟩

/-! ## C5 -/

/-- C5.  For every state with stack pointer in 1..16 whose fetched word is
0x00EE, one EmulateCycle completes with the stack pointer decremented and the
program counter loaded from the stack entry at the decremented pointer. -/
theorem ret_pops_return_address (ext : Op → Chip8 → Except Stuck Chip8) (s : Chip8)
    (hf : s.fetchOpcode = Except.ok 0x00EE) (h1 : 1 ≤ s.sp) (h16 : s.sp ≤ 16) :
    ∃ s', s.EmulateCycle ext = Except.ok s' ∧ s'.sp = s.sp - 1 ∧
      s'.pc = s.stack (s.sp - 1) := by
  exact ret_pops_return_address_aux ext s hf h1 h16

/-- C5 at a concrete state: RET at 0x200 with two stack entries in use, the
upper one 0x0ABC. -/
theorem ret_pops_return_address_witness :
    ∃ s', ({ Chip8.init.withBytes 0x200 [0x00, 0xEE] with
              sp := 2, stack := write (write (fun _ => 0) 0 0x0123) 1 0x0ABC }
            : Chip8).EmulateCycle specBodies = Except.ok s' ∧
      s'.sp = 1 ∧ s'.pc = 0x0ABC :=
  ret_pops_return_address specBodies
    { Chip8.init.withBytes 0x200 [0x00, 0xEE] with
      sp := 2, stack := write (write (fun _ => 0) 0 0x0123) 1 0x0ABC }
    rfl (by decide) (by decide)

/-! ## C6 -/

/-- The cycle as executed, in terms of the handler reached, when both fetch
addresses are inside memory. -/
theorem EmulateCycleRun_eq (beyond : ArrayName → Nat → Nat)
    (ext : Op → Chip8 → Except Stuck Chip8) (s : Chip8) (w : Nat)
    (hf : s.fetchOpcode = Except.ok w) :
    s.EmulateCycleRun beyond ext =
      match handlerOf w with
      | Except.error e => Except.error e
      | Except.ok f =>
        match Chip8.invokeRun beyond ext f { s with opcode := w, pc := s.pc + 2 } with
        | Except.error e => Except.error e
        | Except.ok s1 => Except.ok s1.updateTimers := by
  obtain ⟨hpc, _, hw⟩ := fetchOpcode_ok hf
  have h0 : s.memoryAt beyond s.pc = s.memory s.pc := by
    unfold Chip8.memoryAt
    rw [if_pos (by simp only [MEMORY_SIZE]; omega)]
  have h1 : s.memoryAt beyond (s.pc + 1) = s.memory (s.pc + 1) := by
    unfold Chip8.memoryAt
    rw [if_pos (by simp only [MEMORY_SIZE]; omega)]
  have hadv : (s.pc + 2) % 65536 = s.pc + 2 := by omega
  unfold Chip8.EmulateCycleRun
  simp only [h0, h1, hadv, ← hw]

/-- Where the embedding yields a state, the cycle as executed yields the same
state, whatever lies beyond the arrays. -/
theorem EmulateCycleRun_of_ok (beyond : ArrayName → Nat → Nat)
    (ext : Op → Chip8 → Except Stuck Chip8) (s s' : Chip8)
    (h : s.EmulateCycle ext = Except.ok s') : s.EmulateCycleRun beyond ext = Except.ok s' := by
  cases hf : s.fetchOpcode with
  | error e => simp [Chip8.EmulateCycle, hf] at h
  | ok w =>
    rw [EmulateCycle_eq ext s w hf] at h
    rw [EmulateCycleRun_eq beyond ext s w hf]
    cases hh : handlerOf w with
    | error e => simp [hh] at h
    | ok f =>
      simp only [hh] at h ⊢
      cases f with
      | OP_00EE =>
        simp only [Chip8.invoke, Chip8.OP_00EE] at h
        simp only [Chip8.invokeRun, Chip8.OP_00EE_run, Chip8.stackAt]
        by_cases hlt : dec8 s.sp < STACK_SIZE
        · simp only [if_pos hlt] at h ⊢
          exact h
        · simp only [if_neg hlt] at h
          cases h
      | _ => exact h

/-- C6 as stated fails.  Constructed state (stack pointer 0) with RET at 0x200:
the cycle reports nothing and yields a state; in it the stack pointer has
wrapped to 255, outside 0..16, and the program counter was loaded from index
255 of the 16 entry stack (here with 0 lying beyond the stack).  The embedding
with checks marks that index as outside the array. -/
theorem ret_on_empty_stack_counterexample :
    (Chip8.init.withBytes 0x200 [0x00, 0xEE]).sp = 0 ∧
    (Chip8.init.withBytes 0x200 [0x00, 0xEE]).fetchOpcode = Except.ok 0x00EE ∧
    (∃ s', (Chip8.init.withBytes 0x200 [0x00, 0xEE]).EmulateCycleRun (fun _ _ => 0) specBodies
        = Except.ok s' ∧ s'.sp = 255 ∧ ¬ (s'.sp ≤ 16) ∧ ¬ (s'.sp < STACK_SIZE)) ∧
    (Chip8.init.withBytes 0x200 [0x00, 0xEE]).EmulateCycle specBodies
        = Except.error (Stuck.outOfBounds ArrayName.stack 255) :=
  ⟨rfl, rfl, ⟨_, rfl, rfl, by decide, by decide⟩, rfl⟩

/-- C6 amended.  For every state (stack pointer in its 8-bit range) whose
fetched word is 0x00EE, and whatever lies beyond the stack: the cycle yields a
state and reports nothing; its stack pointer is the previous one decremented
modulo 256 and its program counter is what is read at that index of the stack.
With stack pointer 0 the new stack pointer is 255 and the program counter comes
from index 255, outside the stack.  The new stack pointer is a valid index of
the 16 entry stack exactly when the previous one was in 1..16, and exactly then
the embedding with checks yields that same state; otherwise it marks the index
as outside the array. -/
theorem ret_stack_pointer_unchecked (beyond : ArrayName → Nat → Nat)
    (ext : Op → Chip8 → Except Stuck Chip8) (s : Chip8)
    (hf : s.fetchOpcode = Except.ok 0x00EE) (hsp : s.sp < 256) :
    ∃ s', s.EmulateCycleRun beyond ext = Except.ok s' ∧
      s'.sp = dec8 s.sp ∧ s'.pc = s.stackAt beyond (dec8 s.sp) ∧
      (s.sp = 0 → s'.sp = 255 ∧ s'.pc = beyond ArrayName.stack 255 % 65536) ∧
      (s'.sp < STACK_SIZE ↔ 1 ≤ s.sp ∧ s.sp ≤ 16) ∧
      (1 ≤ s.sp ∧ s.sp ≤ 16 →
        s'.sp = s.sp - 1 ∧ s'.pc = s.stack (s.sp - 1) ∧ s.EmulateCycle ext = Except.ok s') ∧
      (¬ (1 ≤ s.sp ∧ s.sp ≤ 16) →
        s.EmulateCycle ext = Except.error (Stuck.outOfBounds ArrayName.stack s'.sp)) := by
  have hh : handlerOf 0x00EE = Except.ok Op.OP_00EE := by rfl
  have hrun := EmulateCycleRun_eq beyond ext s _ hf
  rw [hh] at hrun
  simp only [Chip8.invokeRun] at hrun
  have hchk := EmulateCycle_eq ext s _ hf
  rw [hh] at hchk
  simp only [Chip8.invoke, Chip8.OP_00EE] at hchk
  refine ⟨_, hrun, ?_, ?_, ?_, ?_, ?_, ?_⟩
  · simp [Chip8.OP_00EE_run]
  · simp [Chip8.OP_00EE_run, Chip8.stackAt]
  · intro h0
    simp [Chip8.OP_00EE_run, Chip8.stackAt, h0, dec8]
  · simp only [updateTimers_sp, Chip8.OP_00EE_run, STACK_SIZE, dec8]
    omega
  · intro hin
    have hd : dec8 s.sp = s.sp - 1 := by unfold dec8; omega
    have hlt : s.sp - 1 < STACK_SIZE := by simp only [STACK_SIZE]; omega
    have hlt16 : s.sp - 1 < 16 := hlt
    refine ⟨by simp [Chip8.OP_00EE_run, hd],
      by simp [Chip8.OP_00EE_run, Chip8.stackAt, hd, hlt16], ?_⟩
    rw [hchk]
    simp only [hd, if_pos hlt, Chip8.OP_00EE_run, Chip8.stackAt]
  · intro hout
    have hge : ¬ (dec8 s.sp < STACK_SIZE) := by
      simp only [STACK_SIZE, dec8]
      omega
    rw [hchk]
    simp only [if_neg hge, updateTimers_sp, Chip8.OP_00EE_run]

/-- C6 amended, at a concrete state: RET at 0x300 with program counter 0x300,
an empty stack, and 0x0ABC lying beyond the stack. -/
theorem ret_stack_pointer_unchecked_witness :
    ∃ s', ({ Chip8.init.withBytes 0x300 [0x00, 0xEE] with pc := 0x300 }
            : Chip8).EmulateCycleRun (fun _ _ => 0x0ABC) specBodies = Except.ok s' ∧
      s'.sp = 255 ∧ s'.pc = 0x0ABC := by
  obtain ⟨s', h, _, _, h0, _⟩ := ret_stack_pointer_unchecked (fun _ _ => 0x0ABC) specBodies
    { Chip8.init.withBytes 0x300 [0x00, 0xEE] with pc := 0x300 } rfl (by decide)
  exact ⟨s', h, (h0 rfl).1, (h0 rfl).2⟩

/-! ## C7 -/

theorem loadFont_apply (m : Nat → Nat) (n a : Nat) :
    loadFont m n a =
      if FONTSET_START_ADDRESS ≤ a ∧ a < FONTSET_START_ADDRESS + n
      then fontset.getD (a - FONTSET_START_ADDRESS) 0 else m a := by
  induction n with
  | zero =>
    have : ¬ (FONTSET_START_ADDRESS ≤ a ∧ a < FONTSET_START_ADDRESS + 0) := by omega
    simp only [this, if_false]
    rfl
  | succ n ih =>
    have hstep : loadFont m (n + 1) =
        write (loadFont m n) (FONTSET_START_ADDRESS + n) (fontset.getD n 0) := by
      simp only [loadFont, List.range_succ, List.foldl_append, List.foldl_cons, List.foldl_nil]
    rw [hstep]
    unfold write
    by_cases ha : a = FONTSET_START_ADDRESS + n
    · subst ha
      simp
    · rw [if_neg ha, ih]
      by_cases hr : FONTSET_START_ADDRESS ≤ a ∧ a < FONTSET_START_ADDRESS + n
      · have hr2 : FONTSET_START_ADDRESS ≤ a ∧ a < FONTSET_START_ADDRESS + (n + 1) :=
          ⟨hr.1, by omega⟩
        rw [if_pos hr, if_pos hr2]
      · have hr2 : ¬ (FONTSET_START_ADDRESS ≤ a ∧ a < FONTSET_START_ADDRESS + (n + 1)) := by
          intro h
          exact hr ⟨h.1, by omega⟩
        rw [if_neg hr, if_neg hr2]

/-- C7.  The constructed state: program counter 0x200; memory[0x050 + i] is
byte i of the 80 byte fontset for every i below 80 (so the sprite of digit d
is at 0x050 + 5*d .. 0x050 + 5*d + 4); every memory byte outside 0x050..0x09F
is 0; registers, index, stack, stack pointer, timers, instruction word,
framebuffer and keypad are all 0. -/
theorem constructed_state :
    Chip8.init.pc = 0x200 ∧
    fontset.length = 80 ∧
    Chip8.init.memory 0x050 = 0xF0 ∧ Chip8.init.memory 0x09F = 0x80 ∧
    (∀ i, i < 80 → Chip8.init.memory (0x050 + i) = fontset.getD i 0) ∧
    (∀ d k, d < 16 → k < 5 →
      Chip8.init.memory (0x050 + 5 * d + k) = fontset.getD (5 * d + k) 0) ∧
    (∀ a, a < 0x050 ∨ 0x09F < a → Chip8.init.memory a = 0) ∧
    (∀ i, Chip8.init.registers i = 0) ∧
    Chip8.init.index = 0 ∧
    (∀ i, Chip8.init.stack i = 0) ∧
    Chip8.init.sp = 0 ∧
    Chip8.init.delayTimer = 0 ∧
    Chip8.init.soundTimer = 0 ∧
    Chip8.init.opcode = 0 ∧
    (∀ i, Chip8.init.screen i = 0) ∧
    (∀ i, Chip8.init.keypad i = 0) := by
  have hmem : ∀ a, Chip8.init.memory a =
      if 0x050 ≤ a ∧ a < 0x050 + 80 then fontset.getD (a - 0x050) 0 else 0 := by
    intro a
    exact loadFont_apply (fun _ => 0) 80 a
  refine ⟨rfl, rfl, rfl, rfl, ?_, ?_, ?_, fun _ => rfl, rfl, fun _ => rfl, rfl, rfl, rfl, rfl,
    fun _ => rfl, fun _ => rfl⟩
  · intro i hi
    rw [hmem, if_pos ⟨by omega, by omega⟩]
    congr 1
    omega
  · intro d k hd hk
    rw [hmem, if_pos ⟨by omega, by omega⟩]
    congr 1
    omega
  · intro a ha
    rw [hmem, if_neg (by omega)]

/-! ## C8 -/

theorem handlerOf_2nnn (nnn : Nat) (hn : nnn < 4096) :
    handlerOf (0x2000 + nnn) = Except.ok Op.OP_2nnn := by
  unfold handlerOf
  have ht : ((0x2000 + nnn) &&& 0xF000) >>> 12 = 2 := by
    rw [topNibble _ (by omega)]; omega
  rw [ht]
  rfl

/-- C8 (CALL modelled from the spec).  For every state with fewer than 16
stack entries in use and every address nnn: the cycle that executes 0x2nnn at
program counter p completes, jumps to nnn and pushes one entry; and from any
later state with the same stack pointer and the same entries below it, the
cycle that executes 0x00EE completes with program counter p + 2 and the stack
pointer as before the CALL. -/
theorem call_ret_round_trip (ext : Op → Chip8 → Except Stuck Chip8)
    (hext : ext Op.OP_2nnn = Chip8.OP_2nnn) (s : Chip8) (nnn : Nat) (hn : nnn < 4096)
    (hsp : s.sp < 16) (hf : s.fetchOpcode = Except.ok (0x2000 + nnn)) :
    ∃ s1, s.EmulateCycle ext = Except.ok s1 ∧ s1.pc = nnn ∧ s1.sp = s.sp + 1 ∧
      ∀ s2 : Chip8, s2.sp = s1.sp → (∀ i, i < s1.sp → s2.stack i = s1.stack i) →
        s2.fetchOpcode = Except.ok 0x00EE →
        ∃ s3, s2.EmulateCycle ext = Except.ok s3 ∧ s3.pc = s.pc + 2 ∧ s3.sp = s.sp := by
  have hlt : s.sp < STACK_SIZE := hsp
  have hinc : (s.sp + 1) % 256 = s.sp + 1 := by omega
  have hcall : Chip8.invoke ext Op.OP_2nnn { s with opcode := 0x2000 + nnn, pc := s.pc + 2 } =
      Except.ok { s with opcode := 0x2000 + nnn, stack := write s.stack s.sp (s.pc + 2),
                         sp := s.sp + 1, pc := nnn } := by
    have hn2 : (0x2000 + nnn) % 4096 = nnn := by omega
    simp only [Chip8.invoke, hext, Chip8.OP_2nnn, if_pos hlt, hinc, and_0FFF, hn2]
  rw [EmulateCycle_eq ext s _ hf, handlerOf_2nnn nnn hn]
  simp only [hcall]
  refine ⟨_, rfl, by simp, by simp, ?_⟩
  intro s2 hsp2 hst hf2
  simp only [updateTimers_sp, updateTimers_stack] at hsp2 hst
  obtain ⟨s3, h3, hsp3, hpc3⟩ := ret_pops_return_address_aux ext s2 hf2 (by omega) (by omega)
  refine ⟨s3, h3, ?_, by omega⟩
  rw [hpc3, hsp2, Nat.add_sub_cancel, hst s.sp (by omega)]
  simp [write]

/-- C8 at a concrete state: CALL 0x300 at 0x200 from the constructed state. -/
theorem call_ret_round_trip_witness :
    ∃ s1, (Chip8.init.withBytes 0x200 [0x23, 0x00]).EmulateCycle specBodies = Except.ok s1 ∧
      s1.pc = 0x300 ∧ s1.sp = 0 + 1 ∧
      ∀ s2 : Chip8, s2.sp = s1.sp → (∀ i, i < s1.sp → s2.stack i = s1.stack i) →
        s2.fetchOpcode = Except.ok 0x00EE →
        ∃ s3, s2.EmulateCycle specBodies = Except.ok s3 ∧ s3.pc = 0x200 + 2 ∧ s3.sp = 0 :=
  call_ret_round_trip specBodies rfl (Chip8.init.withBytes 0x200 [0x23, 0x00]) 0x300
    (by decide) (by decide) rfl

/-! ## C9 -/

theorem nibbleAt (w k : Nat) : (w &&& (15 <<< k)) >>> k = w / 2 ^ k % 16 := by
  have hd : (w &&& (15 <<< k)) >>> k = (w >>> k) &&& (2 ^ 4 - 1) := by
    apply Nat.eq_of_testBit_eq
    intro i
    have hb : Nat.testBit (15 <<< k) (k + i) = Nat.testBit 15 i := by
      rw [Nat.testBit_shiftLeft]; simp
    simp only [Nat.testBit_shiftRight, Nat.testBit_and, hb]
    rfl
  rw [hd, Nat.and_pow_two_sub_one_eq_mod, Nat.shiftRight_eq_div_pow]

theorem decode_8xy4 (x y : Nat) (hx : x < 16) (hy : y < 16) :
    handlerOf (0x8004 + 0x100 * x + 0x10 * y) = Except.ok Op.OP_8xy4 ∧
    ((0x8004 + 0x100 * x + 0x10 * y) &&& 0x0F00) >>> 8 = x ∧
    ((0x8004 + 0x100 * x + 0x10 * y) &&& 0x00F0) >>> 4 = y := by
  refine ⟨?_, ?_, ?_⟩
  · unfold handlerOf
    have ht : ((0x8004 + 0x100 * x + 0x10 * y) &&& 0xF000) >>> 12 = 8 := by
      rw [topNibble _ (by omega)]; omega
    have hl : (0x8004 + 0x100 * x + 0x10 * y) &&& 0x000F = 4 := by
      rw [and_000F]; omega
    rw [ht, hl]
    rfl
  · have h := nibbleAt (0x8004 + 0x100 * x + 0x10 * y) 8
    have hm : (15 : Nat) <<< 8 = 0x0F00 := by decide
    rw [hm] at h
    rw [h]
    omega
  · have h := nibbleAt (0x8004 + 0x100 * x + 0x10 * y) 4
    have hm : (15 : Nat) <<< 4 = 0x00F0 := by decide
    rw [hm] at h
    rw [h]
    omega

/-- C9 as stated fails at x = 0xF (ADD modelled from the spec, flag written
last).  VF = 200, V0 = 100, word 0x8F04: the sum is 300, so register x = VF
would have to be 300 mod 256 = 44, but it holds the carry flag 1. -/
theorem add_into_flag_register_counterexample :
    ∃ s', ({ Chip8.init.withBytes 0x200 [0x8F, 0x04] with
              registers := write (write (fun _ => 0) 0xF 200) 0x0 100 }
            : Chip8).EmulateCycle specBodies = Except.ok s' ∧
      s'.registers 0xF = 1 ∧ (200 + 100) % 256 = 44 ∧
      s'.registers 0xF ≠ (200 + 100) % 256 :=
  ⟨_, rfl, rfl, rfl, by decide⟩

/-- C9 amended (ADD modelled from the spec).  For all register indices x, y,
if the fetched word is 0x8xy4 then one EmulateCycle completes with VF equal to
1 if Vx + Vy exceeded 255 and 0 otherwise, with register x equal to
(Vx + Vy) mod 256 whenever x is not 0xF, and with the program counter advanced
by 2. -/
theorem add_carry (ext : Op → Chip8 → Except Stuck Chip8)
    (hext : ext Op.OP_8xy4 = Chip8.OP_8xy4) (s : Chip8) (x y : Nat) (hx : x < 16)
    (hy : y < 16) (hf : s.fetchOpcode = Except.ok (0x8004 + 0x100 * x + 0x10 * y)) :
    ∃ s', s.EmulateCycle ext = Except.ok s' ∧
      (x ≠ 0xF → s'.registers x = (s.registers x + s.registers y) % 256) ∧
      s'.registers 0xF = (if s.registers x + s.registers y > 255 then 1 else 0) ∧
      (s'.registers 0xF = 1 ↔ s.registers x + s.registers y > 255) ∧
      s'.pc = s.pc + 2 := by
  obtain ⟨hh, hdx, hdy⟩ := decode_8xy4 x y hx hy
  have hadd : Chip8.invoke ext Op.OP_8xy4
        { s with opcode := 0x8004 + 0x100 * x + 0x10 * y, pc := s.pc + 2 } =
      Except.ok { s with opcode := 0x8004 + 0x100 * x + 0x10 * y, pc := s.pc + 2,
                         registers := write (write s.registers x
                            ((s.registers x + s.registers y) % 256)) 0xF
                            (if s.registers x + s.registers y > 255 then 1 else 0) } := by
    simp only [Chip8.invoke, hext, Chip8.OP_8xy4, hdx, hdy]
  rw [EmulateCycle_eq ext s _ hf, hh]
  simp only [hadd]
  refine ⟨_, rfl, ?_, ?_, ?_, ?_⟩
  · intro hxF
    simp [write, hxF]
  · simp [write]
  · simp only [updateTimers_registers, write, if_true]
    split <;> simp_all
  · simp

/-- C9 amended, at the scenario of the spec: V3 = 200, V5 = 100, word 0x8354
gives V3 = 44 and VF = 1. -/
theorem add_carry_witness :
    ∃ s', ({ Chip8.init.withBytes 0x200 [0x83, 0x54] with
              registers := write (write (fun _ => 0) 3 200) 5 100 }
            : Chip8).EmulateCycle specBodies = Except.ok s' ∧
      s'.registers 3 = 44 ∧ s'.registers 0xF = 1 ∧ s'.pc = 0x202 := by
  obtain ⟨s', h, hx, hF, _, hpc⟩ := add_carry specBodies rfl
    { Chip8.init.withBytes 0x200 [0x83, 0x54] with
      registers := write (write (fun _ => 0) 3 200) 5 100 } 3 5 (by decide) (by decide) rfl
  exact ⟨s', h, hx (by decide), hF, hpc⟩

/-! ## C10 -/

/-- The copy loop, as long as it stays inside memory, stores byte i of the
buffer at START_ADDRESS + i and touches nothing else. -/
theorem copyROM_ok (buffer : List Nat) (n : Nat) (s : Chip8)
    (hn : START_ADDRESS + n ≤ MEMORY_SIZE) :
    copyROM buffer n s = Except.ok
      { s with memory := fun a =>
          if START_ADDRESS ≤ a ∧ a < START_ADDRESS + n
          then buffer.getD (a - START_ADDRESS) 0 % 256 else s.memory a } := by
  induction n with
  | zero =>
    have : ∀ a, ¬ (START_ADDRESS ≤ a ∧ a < START_ADDRESS + 0) := by intro a; omega
    simp only [this, if_false]
    rfl
  | succ n ih =>
    have hlt : START_ADDRESS + n < MEMORY_SIZE := by omega
    have ih2 := ih (by omega)
    unfold copyROM at ih2 ⊢
    rw [List.range_succ, List.foldlM_append, ih2]
    simp only [List.foldlM_cons, List.foldlM_nil, if_pos hlt, bind, Except.bind, pure, Except.pure]
    congr 2
    funext a
    unfold write
    by_cases ha : a = START_ADDRESS + n
    · subst ha
      simp
    · rw [if_neg ha]
      beta_reduce
      by_cases hr : START_ADDRESS ≤ a ∧ a < START_ADDRESS + n
      · have hr2 : START_ADDRESS ≤ a ∧ a < START_ADDRESS + (n + 1) := ⟨hr.1, by omega⟩
        rw [if_pos hr, if_pos hr2]
      · have hr2 : ¬ (START_ADDRESS ≤ a ∧ a < START_ADDRESS + (n + 1)) := by
          intro h
          exact hr ⟨h.1, by omega⟩
        rw [if_neg hr, if_neg hr2]

/-- C10.  For every byte sequence rom of length L at most 3584 and every prior
state, LoadROM completes; afterwards memory[0x200 + i] is rom[i] as an unsigned
byte for every i below L, every memory byte outside 0x200 .. 0x200 + L - 1
(the font at 0x050..0x09F included) is unchanged, and so is all other state. -/
theorem loadROM_copies_verbatim (s : Chip8) (rom : List Nat) (hL : rom.length ≤ 3584) :
    ∃ s', s.LoadROM (some rom) = Except.ok s' ∧
      (∀ i, i < rom.length → s'.memory (0x200 + i) = rom.getD i 0 % 256 ∧
        (rom.getD i 0 < 256 → s'.memory (0x200 + i) = rom.getD i 0)) ∧
      (∀ a, a < 0x200 ∨ 0x200 + rom.length ≤ a → s'.memory a = s.memory a) ∧
      (∀ a, 0x050 ≤ a → a ≤ 0x09F → s'.memory a = s.memory a) ∧
      s'.keypad = s.keypad ∧ s'.screen = s.screen ∧ s'.registers = s.registers ∧
      s'.index = s.index ∧ s'.pc = s.pc ∧ s'.stack = s.stack ∧ s'.sp = s.sp ∧
      s'.delayTimer = s.delayTimer ∧ s'.soundTimer = s.soundTimer ∧
      s'.opcode = s.opcode ∧ s'.cout = s.cout := by
  have hn : START_ADDRESS + rom.length ≤ MEMORY_SIZE := by
    simp only [START_ADDRESS, MEMORY_SIZE]; omega
  refine ⟨_, copyROM_ok rom rom.length s hn, ?_, ?_, ?_,
    rfl, rfl, rfl, rfl, rfl, rfl, rfl, rfl, rfl, rfl, rfl⟩
  · intro i hi
    have hr : START_ADDRESS ≤ 0x200 + i ∧ 0x200 + i < START_ADDRESS + rom.length := by
      simp only [START_ADDRESS]; omega
    have hi2 : 0x200 + i - START_ADDRESS = i := by simp only [START_ADDRESS]; omega
    have hm : (if START_ADDRESS ≤ 0x200 + i ∧ 0x200 + i < START_ADDRESS + rom.length
        then rom.getD (0x200 + i - START_ADDRESS) 0 % 256 else s.memory (0x200 + i))
        = rom.getD i 0 % 256 := by
      rw [if_pos hr, hi2]
    refine ⟨hm, fun hb => ?_⟩
    rw [← Nat.mod_eq_of_lt hb]
    exact hm
  · intro a ha
    have hr : ¬ (START_ADDRESS ≤ a ∧ a < START_ADDRESS + rom.length) := by
      simp only [START_ADDRESS]; omega
    exact if_neg hr
  · intro a h1 h2
    have hr : ¬ (START_ADDRESS ≤ a ∧ a < START_ADDRESS + rom.length) := by
      simp only [START_ADDRESS]; omega
    exact if_neg hr

/-- C10 at a concrete input: a three byte ROM loaded into the constructed
state. -/
theorem loadROM_copies_verbatim_witness :
    ∃ s', Chip8.init.LoadROM (some [0x13, 0x00, 0xAB]) = Except.ok s' ∧
      s'.memory 0x200 = 0x13 ∧ s'.memory 0x201 = 0x00 ∧ s'.memory 0x202 = 0xAB ∧
      s'.memory 0x203 = 0 ∧ s'.memory 0x050 = 0xF0 ∧ s'.pc = 0x200 := by
  obtain ⟨s', h, hrom, hout, hfont, _, _, _, _, hpc, _⟩ :=
    loadROM_copies_verbatim Chip8.init [0x13, 0x00, 0xAB] (by decide)
  refine ⟨s', h, (hrom 0 (by decide)).1, (hrom 1 (by decide)).1, (hrom 2 (by decide)).1, ?_, ?_, ?_⟩
  · rw [hout 0x203 (by decide)]; rfl
  · rw [hfont 0x050 (by decide) (by decide)]; rfl
  · rw [hpc]; rfl

/-! ## C11 -/

/-- The copy loop run for more than 3584 iterations: the stores up to index
3583 fill 0x200..0xFFF, the store of iteration 3584 is at memory[4096]. -/
theorem copyROM_beyond (buffer : List Nat) (n : Nat) (s : Chip8) (hn : 3584 < n) :
    copyROM buffer n s = Except.error (Stuck.outOfBounds ArrayName.memory 4096) := by
  induction n with
  | zero => omega
  | succ n ih =>
    unfold copyROM
    rw [List.range_succ, List.foldlM_append]
    by_cases hlast : n = 3584
    · subst hlast
      have hfit := copyROM_ok buffer 3584 s (by decide)
      unfold copyROM at hfit
      rw [hfit]
      rfl
    · have ih2 := ih (by omega)
      unfold copyROM at ih2
      rw [ih2]
      rfl

/-- The copy loop as executed: the first iterations, as long as the index is
inside memory, fill the array from START_ADDRESS on; every later iteration i
is a store at index START_ADDRESS + i outside the array. -/
theorem copyROMRun_spec (buffer : List Nat) (n : Nat) (memory : Nat → Nat) :
    copyROMRun buffer n memory =
      (fun a =>
        if START_ADDRESS ≤ a ∧ a < START_ADDRESS + n ∧ a < MEMORY_SIZE
        then buffer.getD (a - START_ADDRESS) 0 % 256 else memory a,
       (List.range' 3584 (n - 3584)).map
         (fun i => (START_ADDRESS + i, buffer.getD i 0 % 256))) := by
  induction n with
  | zero =>
    have hno : ∀ a, ¬ (START_ADDRESS ≤ a ∧ a < START_ADDRESS + 0 ∧ a < MEMORY_SIZE) := by
      intro a; omega
    simp only [hno, if_false]
    rfl
  | succ n ih =>
    have hstep : copyROMRun buffer (n + 1) memory =
        if START_ADDRESS + n < MEMORY_SIZE then
          (write (copyROMRun buffer n memory).1 (START_ADDRESS + n) (buffer.getD n 0 % 256),
            (copyROMRun buffer n memory).2)
        else ((copyROMRun buffer n memory).1,
          (copyROMRun buffer n memory).2 ++ [(START_ADDRESS + n, buffer.getD n 0 % 256)]) := by
      simp only [copyROMRun, List.range_succ, List.foldl_append, List.foldl_cons, List.foldl_nil]
    rw [hstep, ih]
    by_cases hin : START_ADDRESS + n < MEMORY_SIZE
    · have hn : n < 3584 := by simp only [START_ADDRESS, MEMORY_SIZE] at hin; omega
      have e1 : n + 1 - 3584 = 0 := by omega
      have e2 : n - 3584 = 0 := by omega
      rw [if_pos hin, e1, e2]
      simp only [Prod.mk.injEq, and_true]
      funext a
      simp only [write]
      by_cases ha : a = START_ADDRESS + n
      · subst ha
        have hc : START_ADDRESS ≤ START_ADDRESS + n ∧
            START_ADDRESS + n < START_ADDRESS + (n + 1) ∧ START_ADDRESS + n < MEMORY_SIZE :=
          ⟨by omega, by omega, hin⟩
        rw [if_pos rfl, if_pos hc, Nat.add_sub_cancel_left]
      · rw [if_neg ha]
        by_cases hr : START_ADDRESS ≤ a ∧ a < START_ADDRESS + n ∧ a < MEMORY_SIZE
        · have hr2 : START_ADDRESS ≤ a ∧ a < START_ADDRESS + (n + 1) ∧ a < MEMORY_SIZE :=
            ⟨hr.1, by omega, hr.2.2⟩
          rw [if_pos hr, if_pos hr2]
        · have hr2 : ¬ (START_ADDRESS ≤ a ∧ a < START_ADDRESS + (n + 1) ∧ a < MEMORY_SIZE) := by
            intro h
            exact hr ⟨h.1, by omega, h.2.2⟩
          rw [if_neg hr, if_neg hr2]
    · have hn : 3584 ≤ n := by simp only [START_ADDRESS, MEMORY_SIZE] at hin; omega
      have e1 : n + 1 - 3584 = (n - 3584) + 1 := by omega
      have e2 : 3584 + (n - 3584) = n := by omega
      rw [if_neg hin, e1, List.range'_1_concat, List.map_append, e2]
      simp only [List.map_cons, List.map_nil, Prod.mk.injEq, and_true]
      funext a
      by_cases hr : START_ADDRESS ≤ a ∧ a < START_ADDRESS + n ∧ a < MEMORY_SIZE
      · have hr2 : START_ADDRESS ≤ a ∧ a < START_ADDRESS + (n + 1) ∧ a < MEMORY_SIZE :=
          ⟨hr.1, by omega, hr.2.2⟩
        simp only [if_pos hr, if_pos hr2]
      · have hr2 : ¬ (START_ADDRESS ≤ a ∧ a < START_ADDRESS + (n + 1) ∧ a < MEMORY_SIZE) := by
          intro h
          exact hr ⟨h.1, by omega, h.2.2⟩
        simp only [if_neg hr, if_neg hr2]

theorem getD_replicate_lt (n i b : Nat) (h : i < n) : (List.replicate n b).getD i 0 = b := by
  rw [List.getD_eq_getElem?_getD, List.getElem?_replicate_of_lt h]
  rfl

/-- The loop as executed over a whole file: byte i, for i below 3584, is in
memory at START_ADDRESS + i. -/
theorem LoadROMRun_fill (s : Chip8) (rom : List Nat) (i : Nat) (hi : i < rom.length)
    (hfit : i < 3584) :
    (s.LoadROMRun (some rom)).1 (START_ADDRESS + i) = rom.getD i 0 % 256 := by
  have hspec : s.LoadROMRun (some rom) = _ := copyROMRun_spec rom rom.length s.memory
  rw [hspec]
  have hc : START_ADDRESS ≤ START_ADDRESS + i ∧
      START_ADDRESS + i < START_ADDRESS + rom.length ∧ START_ADDRESS + i < MEMORY_SIZE := by
    simp only [START_ADDRESS, MEMORY_SIZE]; omega
  simp only [if_pos hc, Nat.add_sub_cancel_left]

/-- The loop as executed over a whole file: the stores outside memory are those
of the bytes from 3584 on, in order. -/
theorem LoadROMRun_outside (s : Chip8) (rom : List Nat) :
    (s.LoadROMRun (some rom)).2 =
      (List.range' 3584 (rom.length - 3584)).map
        (fun i => (START_ADDRESS + i, rom.getD i 0 % 256)) := by
  have hspec : s.LoadROMRun (some rom) = _ := copyROMRun_spec rom rom.length s.memory
  rw [hspec]

/-- For a file that fits, the loop as executed makes no store outside memory
and leaves the memory of the state the embedding with checks yields. -/
theorem LoadROMRun_within (s : Chip8) (rom : List Nat) (hL : rom.length ≤ 3584) :
    (s.LoadROMRun (some rom)).2 = [] ∧
    s.LoadROM (some rom) = Except.ok { s with memory := (s.LoadROMRun (some rom)).1 } := by
  have hspec : s.LoadROMRun (some rom) = _ := copyROMRun_spec rom rom.length s.memory
  have e0 : rom.length - 3584 = 0 := by omega
  have hn : START_ADDRESS + rom.length ≤ MEMORY_SIZE := by
    simp only [START_ADDRESS, MEMORY_SIZE]; omega
  have hok : s.LoadROM (some rom) = _ := copyROM_ok rom rom.length s hn
  rw [hspec, hok]
  simp only [e0, List.range'_zero, List.map_nil, Except.ok.injEq, Chip8.mk.injEq, true_and,
    and_true]
  funext a
  by_cases hr : START_ADDRESS ≤ a ∧ a < START_ADDRESS + rom.length
  · have hr2 : START_ADDRESS ≤ a ∧ a < START_ADDRESS + rom.length ∧ a < MEMORY_SIZE :=
      ⟨hr.1, hr.2, by omega⟩
    simp only [if_pos hr, if_pos hr2]
  · have hr2 : ¬ (START_ADDRESS ≤ a ∧ a < START_ADDRESS + rom.length ∧ a < MEMORY_SIZE) := by
      intro h
      exact hr ⟨h.1, h.2.1⟩
    simp only [if_neg hr, if_neg hr2]

/-- C11 as stated fails.  A ROM of 3585 bytes 0xAA loaded into the constructed
state is neither rejected nor truncated: the loop fills memory up to 0xFFF and
then makes the store of 0xAA at index 4096, which is not below MEMORY_SIZE.
The embedding with checks marks that store as outside the array. -/
theorem loadROM_too_long_counterexample :
    (List.replicate 3585 0xAA).length = 3585 ∧
    (Chip8.init.LoadROMRun (some (List.replicate 3585 0xAA))).2 = [(4096, 0xAA)] ∧
    (Chip8.init.LoadROMRun (some (List.replicate 3585 0xAA))).1 (START_ADDRESS + 0) = 0xAA ∧
    (Chip8.init.LoadROMRun (some (List.replicate 3585 0xAA))).1 (START_ADDRESS + 3583) = 0xAA ∧
    START_ADDRESS + 3583 = 0xFFF ∧ ¬ (4096 < MEMORY_SIZE) ∧
    Chip8.init.LoadROM (some (List.replicate 3585 0xAA))
      = Except.error (Stuck.outOfBounds ArrayName.memory 4096) := by
  have hlen : (List.replicate 3585 0xAA).length = 3585 := List.length_replicate _ _
  refine ⟨hlen, ?_, ?_, ?_, by decide, by decide,
    copyROM_beyond _ _ _ (by rw [hlen]; decide)⟩
  · rw [LoadROMRun_outside, hlen]
    simp only [START_ADDRESS, Nat.reduceSub, List.range'_one, List.map_cons, List.map_nil,
      Nat.reduceAdd, getD_replicate_lt 3585 3584 0xAA (by decide), Nat.reduceMod]
  · have h := LoadROMRun_fill Chip8.init (List.replicate 3585 0xAA) 0
      (by rw [hlen]; decide) (by decide)
    rw [getD_replicate_lt 3585 0 0xAA (by decide), (by decide : 0xAA % 256 = 0xAA)] at h
    exact h
  · have h := LoadROMRun_fill Chip8.init (List.replicate 3585 0xAA) 3583
      (by rw [hlen]; decide) (by decide)
    rw [getD_replicate_lt 3585 3583 0xAA (by decide), (by decide : 0xAA % 256 = 0xAA)] at h
    exact h

/-- C11 amended.  LoadROM has no ceiling check: for every byte sequence longer
than 3584 bytes and every prior state it neither rejects nor truncates.  The
copy loop runs over the whole file: it fills 0x200..0xFFF with the first 3584
bytes, leaves memory below 0x200 as it was, and stores every further byte i
at index 0x200 + i, at or beyond 4096 and so outside the memory array,
beginning with byte 3584 at index 4096.  The embedding with checks marks that
first store. -/
theorem loadROM_has_no_ceiling (s : Chip8) (rom : List Nat) (hL : 3584 < rom.length) :
    (∀ i, i < 3584 → (s.LoadROMRun (some rom)).1 (0x200 + i) = rom.getD i 0 % 256) ∧
    (∀ a, a < 0x200 → (s.LoadROMRun (some rom)).1 a = s.memory a) ∧
    (s.LoadROMRun (some rom)).2 =
      (List.range' 3584 (rom.length - 3584)).map
        (fun i => (START_ADDRESS + i, rom.getD i 0 % 256)) ∧
    (s.LoadROMRun (some rom)).2.head? = some (4096, rom.getD 3584 0 % 256) ∧
    (s.LoadROMRun (some rom)).2.length = rom.length - 3584 ∧
    (∀ p, p ∈ (s.LoadROMRun (some rom)).2 → MEMORY_SIZE ≤ p.1) ∧
    s.LoadROM (some rom) = Except.error (Stuck.outOfBounds ArrayName.memory 4096) := by
  have hne : rom.length - 3584 ≠ 0 := by omega
  have hout := LoadROMRun_outside s rom
  refine ⟨?_, ?_, hout, ?_, ?_, ?_, copyROM_beyond rom rom.length s hL⟩
  · intro i hi
    exact LoadROMRun_fill s rom i (by omega) hi
  · intro a ha
    have hspec : s.LoadROMRun (some rom) = _ := copyROMRun_spec rom rom.length s.memory
    rw [hspec]
    have hc : ¬ (START_ADDRESS ≤ a ∧ a < START_ADDRESS + rom.length ∧ a < MEMORY_SIZE) := by
      simp only [START_ADDRESS]; omega
    simp only [if_neg hc]
  · rw [hout]
    simp only [List.head?_map, List.head?_range', if_neg hne, Option.map_some', START_ADDRESS]
  · rw [hout]
    simp only [List.length_map, List.length_range']
  · rw [hout]
    simp only [List.mem_map, List.mem_range'_1]
    rintro p ⟨i, hi, rfl⟩
    simp only [START_ADDRESS, MEMORY_SIZE]
    omega

/-- C11 amended, at a concrete input: 3600 bytes 0x01 loaded over a state
whose memory is all 0xFF; sixteen stores go outside memory, the first at
index 4096. -/
theorem loadROM_has_no_ceiling_witness :
    (({ Chip8.init with memory := fun _ => 0xFF } : Chip8).LoadROMRun
        (some (List.replicate 3600 0x01))).2.length = 3600 - 3584 ∧
    (({ Chip8.init with memory := fun _ => 0xFF } : Chip8).LoadROMRun
        (some (List.replicate 3600 0x01))).2.head? = some (4096, 0x01) ∧
    (({ Chip8.init with memory := fun _ => 0xFF } : Chip8).LoadROMRun
        (some (List.replicate 3600 0x01))).1 0x1FF = 0xFF := by
  have hlen : (List.replicate 3600 0x01).length = 3600 := List.length_replicate _ _
  obtain ⟨_, hlow, _, hhead, hcount, _, _⟩ :=
    loadROM_has_no_ceiling { Chip8.init with memory := fun _ => 0xFF }
      (List.replicate 3600 0x01) (by rw [hlen]; decide)
  rw [hlen] at hcount
  refine ⟨hcount, ?_, hlow 0x1FF (by decide)⟩
  rw [hhead]
  simp only [List.getD_eq_getElem?_getD,
    List.getElem?_replicate_of_lt (by decide : 3584 < 3600), Option.getD_some]

/-! ## C12 -/

/-- The state LoadROM yields from the constructed state for a ROM that fits. -/
theorem loaded_state (rom : List Nat) (hL : rom.length ≤ 3584) :
    ∃ s0, Chip8.init.LoadROM (some rom) = Except.ok s0 ∧ s0.pc = 0x200 ∧
      (∀ i, i < rom.length → s0.memory (0x200 + i) = rom.getD i 0 % 256) ∧
      (∀ a, 0x200 + rom.length ≤ a → s0.memory a = Chip8.init.memory a) := by
  have hn : START_ADDRESS + rom.length ≤ MEMORY_SIZE := by
    simp only [START_ADDRESS, MEMORY_SIZE]; omega
  refine ⟨_, copyROM_ok rom rom.length Chip8.init hn, rfl, ?_, ?_⟩
  · intro i hi
    have hc : START_ADDRESS ≤ 0x200 + i ∧ 0x200 + i < START_ADDRESS + rom.length := by
      simp only [START_ADDRESS]; omega
    have hi2 : 0x200 + i - START_ADDRESS = i := by simp only [START_ADDRESS]; omega
    simp only [if_pos hc, hi2]
  · intro a ha
    have hc : ¬ (START_ADDRESS ≤ a ∧ a < START_ADDRESS + rom.length) := by
      simp only [START_ADDRESS]; omega
    simp only [if_neg hc]

/-- The JP cycle: the state it yields. -/
theorem jp_cycle (ext : Op → Chip8 → Except Stuck Chip8) (s : Chip8) (nnn : Nat)
    (hn : nnn < 4096) (hf : s.fetchOpcode = Except.ok (0x1000 + nnn)) :
    s.EmulateCycle ext =
      Except.ok ({ s with opcode := 0x1000 + nnn, pc := nnn } : Chip8).updateTimers := by
  have hm : (0x1000 + nnn) % 4096 = nnn := by omega
  rw [EmulateCycle_eq ext s _ hf, handlerOf_1nnn nnn hn]
  simp only [Chip8.invoke, Chip8.OP_1nnn, and_0FFF, hm]

/-- The fetch of a state whose program counter is 0xFFF: with the checks it is
marked at index 4096; as executed the second byte is read beyond memory and
the handler runs with the program counter at 4097. -/
theorem cycle_at_0xFFF (beyond : ArrayName → Nat → Nat)
    (ext : Op → Chip8 → Except Stuck Chip8) (s : Chip8) (hpc : s.pc = 0xFFF) :
    s.EmulateCycle ext = Except.error (Stuck.outOfBounds ArrayName.memory 4096) ∧
    s.EmulateCycleRun beyond ext =
      match handlerOf (((s.memory 0xFFF <<< 8) ||| beyond ArrayName.memory 4096 % 256) % 65536) with
      | Except.error e => Except.error e
      | Except.ok f =>
        match Chip8.invokeRun beyond ext f
            { s with
              opcode := ((s.memory 0xFFF <<< 8) ||| beyond ArrayName.memory 4096 % 256) % 65536,
              pc := 4097 } with
        | Except.error e => Except.error e
        | Except.ok s2 => Except.ok s2.updateTimers := by
  constructor
  · simp [Chip8.EmulateCycle, Chip8.fetchOpcode, hpc]
  · have h0 : s.memoryAt beyond s.pc = s.memory 0xFFF := by
      simp [Chip8.memoryAt, hpc]
    have h1 : s.memoryAt beyond (s.pc + 1) = beyond ArrayName.memory 4096 % 256 := by
      simp [Chip8.memoryAt, hpc]
    have h2 : (s.pc + 2) % 65536 = 4097 := by rw [hpc]
    unfold Chip8.EmulateCycleRun
    simp only [h0, h1, h2]

/-- A ROM that fits, loaded into the constructed state, and the first cycle
when the ROM begins with JP nnn. -/
theorem jp_from_rom (beyond : ArrayName → Nat → Nat)
    (ext : Op → Chip8 → Except Stuck Chip8) (rom : List Nat) (hL : rom.length ≤ 3584) :
    ∃ s0, Chip8.init.LoadROM (some rom) = Except.ok s0 ∧
      s0.pc = 0x200 ∧ s0.pc + 1 < MEMORY_SIZE ∧
      (∀ a, 0x200 + rom.length ≤ a → s0.memory a = Chip8.init.memory a) ∧
      ∀ nnn, nnn < 4096 → 2 ≤ rom.length →
        rom.getD 0 0 = 0x10 + nnn / 256 → rom.getD 1 0 = nnn % 256 →
        ∃ s1, s0.EmulateCycle ext = Except.ok s1 ∧
          s0.EmulateCycleRun beyond ext = Except.ok s1 ∧
          s1.memory = s0.memory ∧
          s1.pc = nnn ∧ s1.pc < MEMORY_SIZE ∧
          (s1.pc + 1 < MEMORY_SIZE ↔ nnn ≠ 0xFFF) ∧
          (nnn = 0xFFF →
            s1.EmulateCycle ext = Except.error (Stuck.outOfBounds ArrayName.memory 4096) ∧
            s1.EmulateCycleRun beyond ext =
              match handlerOf
                (((s1.memory 0xFFF <<< 8) ||| beyond ArrayName.memory 4096 % 256) % 65536) with
              | Except.error e => Except.error e
              | Except.ok f =>
                match Chip8.invokeRun beyond ext f
                    { s1 with
                      opcode :=
                        ((s1.memory 0xFFF <<< 8) ||| beyond ArrayName.memory 4096 % 256) % 65536,
                      pc := 4097 } with
                | Except.error e => Except.error e
                | Except.ok s2 => Except.ok s2.updateTimers) := by
  obtain ⟨s0, hload, hpc0, hmem, hrest⟩ := loaded_state rom hL
  have hin : s0.pc + 1 < MEMORY_SIZE := by rw [hpc0]; decide
  refine ⟨s0, hload, hpc0, hin, hrest, ?_⟩
  intro nnn hnnn h2 hb0 hb1
  have hm0 : s0.memory s0.pc = 0x10 + nnn / 256 := by
    have h := hmem 0 (by omega)
    rw [hb0] at h
    rw [hpc0]
    simp only [Nat.add_zero] at h
    rw [h]
    omega
  have hm1 : s0.memory (s0.pc + 1) = nnn % 256 := by
    have h := hmem 1 (by omega)
    rw [hb1] at h
    rw [hpc0, h]
    omega
  have hw : (((0x10 + nnn / 256) <<< 8) ||| nnn % 256) % 65536 = 0x1000 + nnn := by
    rw [shift_or_bytes _ _ (by omega)]
    omega
  have hf := fetchOpcode_of_bytes s0 (0x10 + nnn / 256) (nnn % 256) hin hm0 hm1
  rw [hw] at hf
  have hcyc := jp_cycle ext s0 nnn hnnn hf
  refine ⟨_, hcyc, EmulateCycleRun_of_ok beyond ext _ _ hcyc, by simp, by simp, ?_, ?_, ?_⟩
  · simp only [updateTimers_pc, MEMORY_SIZE]
    omega
  · simp only [updateTimers_pc, MEMORY_SIZE]
    omega
  · intro hF
    exact cycle_at_0xFFF beyond ext _ (by simp only [updateTimers_pc]; exact hF)

/-- C12 as stated fails.  The ROM 0x1F 0xFF (JP 0xFFF) loaded into the
constructed state and one cycle executed: the state reached has program
counter 0xFFF, so its second fetch address pc + 1 = 4096 is not inside memory.
The next cycle is not stopped: it reads index 4096 (marked by the embedding
with checks) and, with 0 lying beyond memory, yields a state with program
counter 4097. -/
theorem fetch_address_counterexample :
    ∃ s0 s1 s2, Chip8.init.LoadROM (some [0x1F, 0xFF]) = Except.ok s0 ∧
      s0.EmulateCycle specBodies = Except.ok s1 ∧
      s0.EmulateCycleRun (fun _ _ => 0) specBodies = Except.ok s1 ∧
      s1.pc = 0xFFF ∧ ¬ (s1.pc + 1 < MEMORY_SIZE) ∧
      s1.EmulateCycle specBodies = Except.error (Stuck.outOfBounds ArrayName.memory 4096) ∧
      s1.EmulateCycleRun (fun _ _ => 0) specBodies = Except.ok s2 ∧
      s2.pc = 4097 ∧ ¬ (s2.pc < MEMORY_SIZE) := by
  obtain ⟨s0, hload, _, _, hrest, hjp⟩ :=
    jp_from_rom (fun _ _ => 0) specBodies [0x1F, 0xFF] (by decide)
  obtain ⟨s1, hchk, hrun, hmem1, hpc1, _, hiff, hF⟩ :=
    hjp 0xFFF (by decide) (by decide) rfl rfl
  obtain ⟨hstuck, hnext⟩ := hF rfl
  have hm : s1.memory 0xFFF = 0 := by
    rw [hmem1, hrest 0xFFF (by decide)]
    rfl
  have hw : (((0 : Nat) <<< 8) ||| 0 % 256) % 65536 = 0 := by decide
  have hh : handlerOf 0 = Except.ok Op.OP_00E0 := by rfl
  simp only [hm, hw, hh, Chip8.invokeRun, Chip8.invoke, Chip8.OP_00E0] at hnext
  refine ⟨s0, s1, _, hload, hchk, hrun, hpc1, fun h => (hiff.mp h) rfl, hstuck, hnext, ?_, ?_⟩
  · simp only [updateTimers_pc]
  · simp only [updateTimers_pc, MEMORY_SIZE]
    decide

/-- C12 amended.  For every ROM of at most 3584 bytes, the state LoadROM
yields from the constructed state has program counter 0x200 with both fetch
addresses inside memory.  Cycles do not keep that: when the ROM begins with
JP nnn, the first cycle yields a state with program counter nnn, which is
inside memory, while pc + 1 is inside memory only if nnn is not 0xFFF; for
nnn = 0xFFF the next cycle reads index 4096 of memory, outside the array, with
no check, and runs its handler with the program counter at 4097. -/
theorem fetch_not_kept_inside_memory (beyond : ArrayName → Nat → Nat)
    (ext : Op → Chip8 → Except Stuck Chip8) (rom : List Nat) (hL : rom.length ≤ 3584) :
    ∃ s0, Chip8.init.LoadROM (some rom) = Except.ok s0 ∧
      s0.pc = 0x200 ∧ s0.pc + 1 < MEMORY_SIZE ∧
      (∀ a, 0x200 + rom.length ≤ a → s0.memory a = Chip8.init.memory a) ∧
      ∀ nnn, nnn < 4096 → 2 ≤ rom.length →
        rom.getD 0 0 = 0x10 + nnn / 256 → rom.getD 1 0 = nnn % 256 →
        ∃ s1, s0.EmulateCycle ext = Except.ok s1 ∧
          s0.EmulateCycleRun beyond ext = Except.ok s1 ∧
          s1.memory = s0.memory ∧
          s1.pc = nnn ∧ s1.pc < MEMORY_SIZE ∧
          (s1.pc + 1 < MEMORY_SIZE ↔ nnn ≠ 0xFFF) ∧
          (nnn = 0xFFF →
            s1.EmulateCycle ext = Except.error (Stuck.outOfBounds ArrayName.memory 4096) ∧
            s1.EmulateCycleRun beyond ext =
              match handlerOf
                (((s1.memory 0xFFF <<< 8) ||| beyond ArrayName.memory 4096 % 256) % 65536) with
              | Except.error e => Except.error e
              | Except.ok f =>
                match Chip8.invokeRun beyond ext f
                    { s1 with
                      opcode :=
                        ((s1.memory 0xFFF <<< 8) ||| beyond ArrayName.memory 4096 % 256) % 65536,
                      pc := 4097 } with
                | Except.error e => Except.error e
                | Except.ok s2 => Except.ok s2.updateTimers) :=
  jp_from_rom beyond ext rom hL

/-- C12 amended, at the ROM 0x1F 0xFF: the loaded state fetches inside memory,
the state after the JP cycle has pc + 1 = 4096. -/
theorem fetch_not_kept_inside_memory_witness :
    ∃ s0 s1, Chip8.init.LoadROM (some [0x1F, 0xFF]) = Except.ok s0 ∧
      s0.pc + 1 < MEMORY_SIZE ∧
      s0.EmulateCycleRun (fun _ _ => 0) specBodies = Except.ok s1 ∧
      s1.pc = 0xFFF ∧ ¬ (s1.pc + 1 < MEMORY_SIZE) := by
  obtain ⟨s0, hload, _, hin, _, hjp⟩ :=
    fetch_not_kept_inside_memory (fun _ _ => 0) specBodies [0x1F, 0xFF] (by decide)
  obtain ⟨s1, _, hrun, _, hpc, _, hiff, _⟩ := hjp 0xFFF (by decide) (by decide) rfl rfl
  exact ⟨s0, s1, hload, hin, hrun, hpc, fun h => (hiff.mp h) rfl⟩

/-! ## C13 -/

/-- The timer update writes BEEP to the output exactly when it finds the sound
timer at 1. -/
theorem updateTimers_cout (s : Chip8) :
    s.updateTimers.cout = if s.soundTimer = 1 then s.cout ++ ["BEEP!\n"] else s.cout := by
  unfold Chip8.updateTimers
  by_cases hd : s.delayTimer > 0 <;> by_cases hs : s.soundTimer > 0 <;>
    by_cases h1 : s.soundTimer = 1 <;> simp [hd, hs, h1]

/-- The four handlers with a body in chip8.cpp write nothing to the output. -/
theorem invoke_source_cout (ext : Op → Chip8 → Except Stuck Chip8) (f : Op) (s s1 : Chip8)
    (hop : f = Op.OP_NULL ∨ f = Op.OP_00E0 ∨ f = Op.OP_00EE ∨ f = Op.OP_1nnn)
    (h : Chip8.invoke ext f s = Except.ok s1) : s1.cout = s.cout := by
  rcases hop with rfl | rfl | rfl | rfl
  · simp only [Chip8.invoke, Chip8.OP_NULL, Except.ok.injEq] at h
    subst h; rfl
  · simp only [Chip8.invoke, Chip8.OP_00E0, Except.ok.injEq] at h
    subst h; rfl
  · simp only [Chip8.invoke, Chip8.OP_00EE] at h
    split at h
    · simp only [Except.ok.injEq] at h
      subst h; rfl
    · simp at h
  · simp only [Chip8.invoke, Chip8.OP_1nnn, Except.ok.injEq] at h
    subst h; rfl

/-- C13.  For every state, let s1 be the state the handler of the fetched word
leaves, on which the timer update of the cycle runs.  The cycle appends the
tone output BEEP if and only if that update takes the sound timer from 1 to 0;
when the sound timer at update time is 0 or greater than 1 the output is
unchanged.  For CLS, RET, JP and the no-op, s1 has the sound timer and the
output of the state before the cycle. -/
theorem beep_is_an_edge (ext : Op → Chip8 → Except Stuck Chip8) (s s1 : Chip8) (w : Nat)
    (f : Op) (hf : s.fetchOpcode = Except.ok w) (hh : handlerOf w = Except.ok f)
    (hi : Chip8.invoke ext f { s with opcode := w, pc := s.pc + 2 } = Except.ok s1) :
    s.EmulateCycle ext = Except.ok s1.updateTimers ∧
    (s1.updateTimers.cout = s1.cout ++ ["BEEP!\n"] ↔
      (s1.soundTimer = 1 ∧ s1.updateTimers.soundTimer = 0)) ∧
    (s1.soundTimer = 0 ∨ s1.soundTimer > 1 → s1.updateTimers.cout = s1.cout) ∧
    (f = Op.OP_NULL ∨ f = Op.OP_00E0 ∨ f = Op.OP_00EE ∨ f = Op.OP_1nnn →
      s1.soundTimer = s.soundTimer ∧ s1.cout = s.cout) := by
  refine ⟨?_, ?_, ?_, ?_⟩
  · rw [EmulateCycle_eq ext s w hf, hh]
    simp only [hi]
  · rw [updateTimers_cout]
    constructor
    · intro h
      by_cases h1 : s1.soundTimer = 1
      · refine ⟨h1, ?_⟩
        rw [updateTimers_soundTimer s1 (by omega), h1]
      · rw [if_neg h1] at h
        simp at h
    · intro h
      rw [if_pos h.1]
  · intro h
    rw [updateTimers_cout, if_neg (by omega)]
  · intro hop
    have ht := invoke_source_timers ext f { s with opcode := w, pc := s.pc + 2 } s1 hop hi
    have hc := invoke_source_cout ext f { s with opcode := w, pc := s.pc + 2 } s1 hop hi
    exact ⟨ht.2, hc⟩

/-- C13 at a concrete state: JP 0x300 with the sound timer at 1 emits one
BEEP and leaves the sound timer at 0. -/
theorem beep_is_an_edge_witness :
    ({ Chip8.init.withBytes 0x200 [0x13, 0x00] with soundTimer := 1 } : Chip8).EmulateCycle
        specBodies
      = Except.ok ({ Chip8.init.withBytes 0x200 [0x13, 0x00] with
                      soundTimer := 1, opcode := 0x1300, pc := 0x300 } : Chip8).updateTimers ∧
    ({ Chip8.init.withBytes 0x200 [0x13, 0x00] with
        soundTimer := 1, opcode := 0x1300, pc := 0x300 } : Chip8).updateTimers.cout
      = [] ++ ["BEEP!\n"] :=
  ⟨(beep_is_an_edge specBodies
      { Chip8.init.withBytes 0x200 [0x13, 0x00] with soundTimer := 1 }
      { Chip8.init.withBytes 0x200 [0x13, 0x00] with
        soundTimer := 1, opcode := 0x1300, pc := 0x300 }
      0x1300 Op.OP_1nnn rfl rfl rfl).1,
   rfl⟩

/-! ## C14 -/

theorem table_entry_total (i : Nat) (hi : i < 16) :
    ∃ f, entry ArrayName.table table i = Except.ok f := by
  interval_cases i <;> exact ⟨_, rfl⟩

/-- C14.  For every state with pc and pc + 1 inside memory (memory cells being
bytes): the fetched word is 256 * memory[pc] + memory[pc + 1]; the primary
handler f is the entry of table at the top nibble of the word, and any 16-bit
word with the same top nibble selects the same f; f runs on the state whose
program counter is already pc + 2; and the timer update is applied to the
state f leaves. -/
theorem fetch_and_cycle_order (ext : Op → Chip8 → Except Stuck Chip8) (s : Chip8)
    (hpc : s.pc + 1 < MEMORY_SIZE) (h0 : s.memory s.pc < 256)
    (h1 : s.memory (s.pc + 1) < 256) :
    s.fetchOpcode = Except.ok (256 * s.memory s.pc + s.memory (s.pc + 1)) ∧
    ∃ f, entry ArrayName.table table ((256 * s.memory s.pc + s.memory (s.pc + 1)) / 4096)
          = Except.ok f ∧
      (∀ w', w' < 65536 →
        w' / 4096 = (256 * s.memory s.pc + s.memory (s.pc + 1)) / 4096 →
        entry ArrayName.table table ((w' &&& 0xF000) >>> 12) = Except.ok f) ∧
      s.EmulateCycle ext =
        match Chip8.call ext f
            { s with opcode := 256 * s.memory s.pc + s.memory (s.pc + 1), pc := s.pc + 2 } with
        | Except.error e => Except.error e
        | Except.ok s1 => Except.ok s1.updateTimers := by
  have hw : 256 * s.memory s.pc + s.memory (s.pc + 1) < 65536 := by omega
  have hfetch : s.fetchOpcode = Except.ok (256 * s.memory s.pc + s.memory (s.pc + 1)) := by
    rw [fetchOpcode_of_bytes s _ _ hpc rfl rfl, shift_or_bytes _ _ h1, Nat.mod_eq_of_lt hw]
  obtain ⟨f, hfe⟩ := table_entry_total ((256 * s.memory s.pc + s.memory (s.pc + 1)) / 4096)
    (by omega)
  refine ⟨hfetch, f, hfe, ?_, ?_⟩
  · intro w' hw' hsame
    rw [topNibble w' hw', hsame]
    exact hfe
  · have hadv : (s.pc + 2) % 65536 = s.pc + 2 := by
      simp only [MEMORY_SIZE] at hpc
      omega
    unfold Chip8.EmulateCycle
    simp only [hfetch, hadv, topNibble _ hw, hfe]

/-- C14 at a concrete state: the bytes 0x13, 0x00 at 0x200 are decoded as
0x1300 = 256 * 0x13 + 0x00. -/
theorem fetch_and_cycle_order_witness :
    (Chip8.init.withBytes 0x200 [0x13, 0x00]).fetchOpcode = Except.ok (256 * 0x13 + 0x00) :=
  (fetch_and_cycle_order specBodies (Chip8.init.withBytes 0x200 [0x13, 0x00])
    (by decide) (by decide) (by decide)).1

/-! ## C15 -/

/-- C15 (the code at indices the masks produce).  The masks give 15 for the
word 0x000F (likewise 0x800F and 0xE00F) and 0x66 for 0xF066, and these are
not valid indices of the 15 entry tables and the 0x66 entry tableF: the lookup
is outside the table.  What does hold: every index inside a table finds an
entry the constructor initialised. -/
theorem secondary_lookup_not_always_in_bounds :
    (0x000F &&& 0x000F = 15 ∧ table0.length = 15 ∧
      entry ArrayName.table0 table0 (0x000F &&& 0x000F)
        = Except.error (Stuck.outOfBounds ArrayName.table0 15)) ∧
    (0x800F &&& 0x000F = 15 ∧ table8.length = 15 ∧
      entry ArrayName.table8 table8 (0x800F &&& 0x000F)
        = Except.error (Stuck.outOfBounds ArrayName.table8 15)) ∧
    (0xE00F &&& 0x000F = 15 ∧ tableE.length = 15 ∧
      entry ArrayName.tableE tableE (0xE00F &&& 0x000F)
        = Except.error (Stuck.outOfBounds ArrayName.tableE 15)) ∧
    (0xF066 &&& 0x00FF = 0x66 ∧ tableF.length = 0x66 ∧
      entry ArrayName.tableF tableF (0xF066 &&& 0x00FF)
        = Except.error (Stuck.outOfBounds ArrayName.tableF 0x66)) ∧
    (∀ i, i < 15 → ∃ f, entry ArrayName.table0 table0 i = Except.ok f) ∧
    (∀ i, i < 15 → ∃ f, entry ArrayName.table8 table8 i = Except.ok f) ∧
    (∀ i, i < 15 → ∃ f, entry ArrayName.tableE tableE i = Except.ok f) ∧
    (∀ i, i < 0x66 → ∃ f, entry ArrayName.tableF tableF i = Except.ok f) := by
  refine ⟨⟨rfl, rfl, rfl⟩, ⟨rfl, rfl, rfl⟩, ⟨rfl, rfl, rfl⟩, ⟨rfl, rfl, rfl⟩, ?_, ?_, ?_, ?_⟩
  · intro i hi
    interval_cases i <;> exact ⟨_, rfl⟩
  · intro i hi
    interval_cases i <;> exact ⟨_, rfl⟩
  · intro i hi
    interval_cases i <;> exact ⟨_, rfl⟩
  · intro i hi
    interval_cases i <;> exact ⟨_, rfl⟩

/-! ## C16 -/

theorem updateTimers_with_opcode (s : Chip8) (w : Nat) :
    ({ s with opcode := w } : Chip8).updateTimers = { s.updateTimers with opcode := w } := by
  unfold Chip8.updateTimers
  by_cases hd : s.delayTimer > 0 <;> by_cases hs : s.soundTimer > 0 <;>
    by_cases h1 : s.soundTimer = 1 <;> simp [hd, hs, h1]

theorem handlerOf_family0 (w : Nat) (hw : w < 65536) (ht : w / 4096 = 0) :
    (w % 16 = 0 → handlerOf w = Except.ok Op.OP_00E0) ∧
    (w % 16 = 0xE → handlerOf w = Except.ok Op.OP_00EE) := by
  unfold handlerOf
  rw [topNibble w hw, and_000F, ht]
  constructor
  · intro hk
    rw [hk]
    rfl
  · intro hk
    rw [hk]
    rfl

/-- C16.  For every state whose fetched word w has top nibble 0: with low
nibble 0 the cycle is CLS (program counter plus 2, framebuffer cleared, timer
update), with low nibble 0xE it is RET (decrement of the stack pointer, then
the program counter from the stack, or the index outside the stack when the
decremented pointer is not below 16).  In both results w occurs in the stored
instruction word only, so the middle two nibbles influence nothing else. -/
theorem family0_decode_aliasing (ext : Op → Chip8 → Except Stuck Chip8) (s : Chip8) (w : Nat)
    (hf : s.fetchOpcode = Except.ok w) (ht : w / 4096 = 0) :
    (w % 16 = 0 →
      s.EmulateCycle ext = Except.ok
        { ({ s with pc := s.pc + 2,
                    screen := fun i => if i < SCREEN_WIDTH * SCREEN_HEIGHT then 0 else s.screen i }
            : Chip8).updateTimers with opcode := w }) ∧
    (w % 16 = 0xE →
      s.EmulateCycle ext =
        if dec8 s.sp < STACK_SIZE then
          Except.ok { ({ s with sp := dec8 s.sp, pc := s.stack (dec8 s.sp) }
                        : Chip8).updateTimers with opcode := w }
        else Except.error (Stuck.outOfBounds ArrayName.stack (dec8 s.sp))) := by
  have hw : w < 65536 := (fetchOpcode_ok hf).2.1
  obtain ⟨hcls, hret⟩ := handlerOf_family0 w hw ht
  rw [EmulateCycle_eq ext s w hf]
  constructor
  · intro hk
    rw [hcls hk]
    simp only [Chip8.invoke, Chip8.OP_00E0]
    rw [← updateTimers_with_opcode]
  · intro hk
    rw [hret hk]
    simp only [Chip8.invoke, Chip8.OP_00EE]
    by_cases hlt : dec8 s.sp < STACK_SIZE
    · simp only [if_pos hlt]
      rw [← updateTimers_with_opcode]
    · simp only [if_neg hlt]

/-- C16 at concrete states: the word 0x0120 acts as CLS and the word 0x012E
as RET (stack pointer 1, return address 0x0ABC). -/
theorem family0_decode_aliasing_witness :
    (∃ s', ({ Chip8.init.withBytes 0x200 [0x01, 0x20] with screen := fun _ => 1 }
              : Chip8).EmulateCycle specBodies = Except.ok s' ∧
        s'.pc = 0x202 ∧ s'.screen 0 = 0 ∧ s'.screen 2047 = 0 ∧ s'.opcode = 0x0120) ∧
    (∃ s', ({ Chip8.init.withBytes 0x200 [0x01, 0x2E] with
                sp := 1, stack := write (fun _ => 0) 0 0x0ABC }
              : Chip8).EmulateCycle specBodies = Except.ok s' ∧
        s'.pc = 0x0ABC ∧ s'.sp = 0 ∧ s'.opcode = 0x012E) :=
  ⟨⟨_, (family0_decode_aliasing specBodies
          { Chip8.init.withBytes 0x200 [0x01, 0x20] with screen := fun _ => 1 }
          0x0120 rfl (by decide)).1 (by decide), rfl, rfl, rfl, rfl⟩,
   ⟨_, (family0_decode_aliasing specBodies
          { Chip8.init.withBytes 0x200 [0x01, 0x2E] with
            sp := 1, stack := write (fun _ => 0) 0 0x0ABC }
          0x012E rfl (by decide)).2 (by decide), rfl, rfl, rfl⟩⟩

/-! ## C17 -/

/-- What CLS, RET and JP leave as it was, on the state they are called on. -/
theorem invoke_source_frame (ext : Op → Chip8 → Except Stuck Chip8) (f : Op) (s s1 : Chip8)
    (hop : f = Op.OP_00E0 ∨ f = Op.OP_1nnn ∨ f = Op.OP_00EE)
    (h : Chip8.invoke ext f s = Except.ok s1) :
    s1.memory = s.memory ∧ s1.registers = s.registers ∧ s1.index = s.index ∧
    s1.keypad = s.keypad ∧ s1.stack = s.stack ∧
    (f ≠ Op.OP_00E0 → s1.screen = s.screen) ∧ (f ≠ Op.OP_00EE → s1.sp = s.sp) := by
  rcases hop with rfl | rfl | rfl
  · simp only [Chip8.invoke, Chip8.OP_00E0, Except.ok.injEq] at h
    subst h
    exact ⟨rfl, rfl, rfl, rfl, rfl, fun hne => absurd rfl hne, fun _ => rfl⟩
  · simp only [Chip8.invoke, Chip8.OP_1nnn, Except.ok.injEq] at h
    subst h
    exact ⟨rfl, rfl, rfl, rfl, rfl, fun _ => rfl, fun _ => rfl⟩
  · simp only [Chip8.invoke, Chip8.OP_00EE] at h
    split at h
    · simp only [Except.ok.injEq] at h
      subst h
      exact ⟨rfl, rfl, rfl, rfl, rfl, fun _ => rfl, fun hne => absurd rfl hne⟩
    · simp at h

/-- C17.  For every state whose fetched word is routed to CLS, JP or RET:
every state one EmulateCycle yields has the memory, the registers, the index
register, the keypad and the stack entries of the state before (RET does not
clear the popped slot); JP and RET also leave the framebuffer, CLS and JP also
the stack pointer.  The cycle does yield a state, for RET provided the stack
pointer is in 1..16. -/
theorem implemented_instructions_frame (ext : Op → Chip8 → Except Stuck Chip8) (s : Chip8)
    (w : Nat) (f : Op) (hf : s.fetchOpcode = Except.ok w) (hh : handlerOf w = Except.ok f)
    (hop : f = Op.OP_00E0 ∨ f = Op.OP_1nnn ∨ f = Op.OP_00EE) :
    (∀ s', s.EmulateCycle ext = Except.ok s' →
      s'.memory = s.memory ∧ s'.registers = s.registers ∧ s'.index = s.index ∧
      s'.keypad = s.keypad ∧ s'.stack = s.stack ∧
      (f ≠ Op.OP_00E0 → s'.screen = s.screen) ∧ (f ≠ Op.OP_00EE → s'.sp = s.sp)) ∧
    ((f = Op.OP_00EE → 1 ≤ s.sp ∧ s.sp ≤ 16) → ∃ s', s.EmulateCycle ext = Except.ok s') := by
  rw [EmulateCycle_eq ext s w hf, hh]
  constructor
  · intro s' h
    cases hi : Chip8.invoke ext f { s with opcode := w, pc := s.pc + 2 } with
    | error e => simp [hi] at h
    | ok s1 =>
      simp only [hi, Except.ok.injEq] at h
      subst h
      have hfr := invoke_source_frame ext f { s with opcode := w, pc := s.pc + 2 } s1 hop hi
      simp only [updateTimers_memory, updateTimers_registers, updateTimers_index,
        updateTimers_keypad, updateTimers_stack, updateTimers_screen, updateTimers_sp]
      exact hfr
  · intro hsp
    rcases hop with rfl | rfl | rfl
    · exact ⟨_, rfl⟩
    · exact ⟨_, rfl⟩
    · obtain ⟨h1, h16⟩ := hsp rfl
      simp only [Chip8.invoke]
      rw [OP_00EE_ok { s with opcode := w, pc := s.pc + 2 } h1 h16]
      exact ⟨_, rfl⟩

/-- C17 at a concrete state: RET at 0x200 with stack pointer 1 keeps the
popped slot 0x0ABC in the stack and leaves a lit framebuffer lit. -/
theorem implemented_instructions_frame_witness :
    ∃ s', ({ Chip8.init.withBytes 0x200 [0x00, 0xEE] with
              sp := 1, stack := write (fun _ => 0) 0 0x0ABC, screen := fun _ => 1 }
            : Chip8).EmulateCycle specBodies = Except.ok s' ∧
      s'.stack 0 = 0x0ABC ∧ s'.screen 5 = 1 ∧ s'.memory 0x201 = 0xEE := by
  obtain ⟨hframe, hex⟩ := implemented_instructions_frame specBodies
    { Chip8.init.withBytes 0x200 [0x00, 0xEE] with
      sp := 1, stack := write (fun _ => 0) 0 0x0ABC, screen := fun _ => 1 }
    0x00EE Op.OP_00EE rfl rfl (Or.inr (Or.inr rfl))
  obtain ⟨s', hs'⟩ := hex (fun _ => ⟨by decide, by decide⟩)
  obtain ⟨hm, _, _, _, hst, hsc, _⟩ := hframe s' hs'
  refine ⟨s', hs', ?_, ?_, ?_⟩
  · rw [hst]; rfl
  · rw [hsc (by decide)]
  · rw [hm]; rfl

end Chip8Emu
